
import Mathlib

/-!
Verification of the freetheprogs 3D-geometry engine (OBJ / PLY / glTF parsers,
Scene validator, encoders) against its natural-language specification.

The TypeScript sources are shallowly embedded below.  JavaScript numbers are
modelled as exact rationals together with the special values NaN, Infinity and
-Infinity; IEEE-754 double rounding is not modelled (every concrete value
exercised by the claims is exactly representable in both models).  Strings are
Lean strings, byte buffers are lists of byte values, and JavaScript exceptions
are modelled by an explicit outcome constructor.  Rationals use a dedicated
canonical-fraction type so that all embedded functions evaluate inside the
kernel.
-/

set_option maxRecDepth 100000
set_option maxHeartbeats 1000000
set_option exponentiation.threshold 1500

/-- Euclid with an explicit structural fuel (the fuel is an upper bound on the
number of steps, so the result equals the mathematical gcd whenever
`fuel > a`). -/
def natGcdAux : Nat → Nat → Nat → Nat
  | 0, _, b => b
  | fuel + 1, a, b => if a = 0 then b else natGcdAux fuel (b % a) a

/-- Greatest common divisor, kernel-reducible. -/
def natGcd (a b : Nat) : Nat := natGcdAux (a + 1) a b

/-- Exact rational numbers in canonical form (`d` positive, `n` and `d`
coprime); all arithmetic below re-normalizes via `mkQ`. -/
structure Q : Type where
  n : ℤ
  d : ℕ
deriving DecidableEq

/-- Build a canonical fraction from a numerator and a positive denominator. -/
def mkQ (n : ℤ) (d : ℕ) : Q :=
  if d = 0 then ⟨0, 1⟩
  else
    let g := natGcd n.natAbs d
    ⟨n.ediv (g : ℤ), d / g⟩

def Q.ofNat (m : ℕ) : Q := ⟨(m : ℤ), 1⟩

def Q.ofInt (z : ℤ) : Q := ⟨z, 1⟩

def Q.neg (a : Q) : Q := ⟨-a.n, a.d⟩

def Q.add (a b : Q) : Q := mkQ (a.n * (b.d : ℤ) + b.n * (a.d : ℤ)) (a.d * b.d)

def Q.sub (a b : Q) : Q := mkQ (a.n * (b.d : ℤ) - b.n * (a.d : ℤ)) (a.d * b.d)

def Q.mul (a b : Q) : Q := mkQ (a.n * b.n) (a.d * b.d)

/-- Strict order on canonical fractions. -/
def Q.blt (a b : Q) : Bool := decide (a.n * (b.d : ℤ) < b.n * (a.d : ℤ))

/-- Nonstrict order on canonical fractions. -/
def Q.ble (a b : Q) : Bool := decide (a.n * (b.d : ℤ) ≤ b.n * (a.d : ℤ))

/-- Floor of a canonical fraction. -/
def Q.floorI (a : Q) : ℤ := Int.fdiv a.n (a.d : ℤ)

/-- Ceiling of a canonical fraction. -/
def Q.ceilI (a : Q) : ℤ := -(Int.fdiv (-a.n) (a.d : ℤ))

/-- Truncation toward zero, as JavaScript integer conversions do. -/
def Q.truncI (a : Q) : ℤ := if 0 ≤ a.n then a.floorI else a.ceilI

/-- Integer power with an integer exponent, for a positive natural base. -/
def qPowInt (b : ℕ) (e : ℤ) : Q :=
  if 0 ≤ e then ⟨((b : ℤ) ^ e.toNat), 1⟩ else mkQ 1 (b ^ (-e).toNat)

/-- Model of a JavaScript number: an exact rational for finite doubles plus
NaN, Infinity and -Infinity. -/
inductive JSNum : Type where
  | num (q : Q)
  | nan
  | inf
  | ninf
deriving DecidableEq

/-- Shorthand for a finite integral JavaScript number. -/
def jn (z : ℤ) : JSNum := .num ⟨z, 1⟩

/-- JavaScript `Number.isFinite`. -/
def JSNum.isFinite : JSNum → Bool
  | .num _ => true
  | _ => false

/-- JavaScript `Number.isInteger`. -/
def JSNum.isIntegerJS : JSNum → Bool
  | .num q => q.d = 1
  | _ => false

/-- JavaScript truthiness of a number (`0`, `-0` and `NaN` are falsy). -/
def JSNum.truthy : JSNum → Bool
  | .num q => decide (q.n ≠ 0)
  | .nan => false
  | _ => true

/-- JavaScript `<` on numbers (any comparison with NaN is false). -/
def JSNum.lt : JSNum → JSNum → Bool
  | .nan, _ => false
  | _, .nan => false
  | .num a, .num b => Q.blt a b
  | .num _, .inf => true
  | .num _, .ninf => false
  | .inf, _ => false
  | .ninf, .ninf => false
  | .ninf, _ => true

/-- JavaScript `<=` on numbers (any comparison with NaN is false). -/
def JSNum.le : JSNum → JSNum → Bool
  | .nan, _ => false
  | _, .nan => false
  | .num a, .num b => Q.ble a b
  | .num _, .inf => true
  | .num _, .ninf => false
  | .inf, .inf => true
  | .inf, _ => false
  | .ninf, _ => true

/-- JavaScript strict equality `===` on numbers (`NaN !== NaN`). -/
def JSNum.strictEq : JSNum → JSNum → Bool
  | .nan, _ => false
  | _, .nan => false
  | a, b => a == b

/-- JavaScript addition on numbers. -/
def JSNum.add : JSNum → JSNum → JSNum
  | .num a, .num b => .num (Q.add a b)
  | .nan, _ => .nan
  | _, .nan => .nan
  | .inf, .ninf => .nan
  | .inf, _ => .inf
  | .ninf, .inf => .nan
  | .ninf, _ => .ninf
  | .num _, .inf => .inf
  | .num _, .ninf => .ninf

/-- JavaScript subtraction on numbers. -/
def JSNum.sub : JSNum → JSNum → JSNum
  | .num a, .num b => .num (Q.sub a b)
  | .nan, _ => .nan
  | _, .nan => .nan
  | .inf, .inf => .nan
  | .inf, _ => .inf
  | .ninf, .ninf => .nan
  | .ninf, _ => .ninf
  | .num _, .inf => .ninf
  | .num _, .ninf => .inf

/-- JavaScript multiplication on numbers. -/
def JSNum.mul : JSNum → JSNum → JSNum
  | .num a, .num b => .num (Q.mul a b)
  | .nan, _ => .nan
  | _, .nan => .nan
  | .inf, .inf => .inf
  | .inf, .ninf => .ninf
  | .ninf, .inf => .ninf
  | .ninf, .ninf => .inf
  | .inf, .num b => if b.n = 0 then .nan else if 0 < b.n then .inf else .ninf
  | .num a, .inf => if a.n = 0 then .nan else if 0 < a.n then .inf else .ninf
  | .ninf, .num b => if b.n = 0 then .nan else if 0 < b.n then .ninf else .inf
  | .num a, .ninf => if a.n = 0 then .nan else if 0 < a.n then .ninf else .inf

/-- JavaScript `x | 0`: ToInt32 (truncate toward zero, wrap modulo 2^32 into
the signed range; NaN and infinities map to 0). -/
def JSNum.toInt32 : JSNum → ℤ
  | .num q =>
    let t := q.truncI
    let m := Int.emod t (2 ^ 32)
    if 2 ^ 31 ≤ m then m - 2 ^ 32 else m
  | _ => 0

/-- Number of iterations of a JavaScript loop `for (let i = 0; i < count; i++)`
with a numeric bound.  A NaN bound yields zero iterations; an Infinity bound
would not terminate in JavaScript and is modelled as zero (never exercised). -/
def JSNum.loopCount : JSNum → Nat
  | .num q => if q.n ≤ 0 then 0 else q.ceilI.toNat
  | _ => 0

/-- JavaScript ToLength as used by `Array.from` with a length field:
truncate and clamp below at 0 (the 2^53-1 upper clamp is not modelled). -/
def JSNum.toLengthNat : JSNum → Nat
  | .num q => q.truncI.toNat
  | _ => 0

/-- JavaScript `Math.min` of two numbers (NaN propagates). -/
def JSNum.min2 : JSNum → JSNum → JSNum
  | .nan, _ => .nan
  | _, .nan => .nan
  | a, b => if JSNum.lt a b then a else b

/-- JavaScript `Math.max` of two numbers (NaN propagates). -/
def JSNum.max2 : JSNum → JSNum → JSNum
  | .nan, _ => .nan
  | _, .nan => .nan
  | a, b => if JSNum.lt a b then b else a

/-- Decimal digits of the fractional part of a nonnegative rational (bounded
recursion depth; every value produced by the embedded parsers has a finite
decimal expansion, being a dyadic rational scaled by powers of ten). -/
def ratFracDigits : Nat → Q → String
  | 0, _ => ""
  | fuel + 1, r =>
    if r.n = 0 then ""
    else
      let r10 := Q.mul r (Q.ofNat 10)
      let d := r10.floorI
      toString d.toNat ++ ratFracDigits fuel (Q.sub r10 (Q.ofInt d))

/-- Decimal rendering of a nonnegative rational. -/
def ratToDecimal (q : Q) : String :=
  let ip := q.floorI.toNat
  let fr := Q.sub q (Q.ofInt q.floorI)
  if fr.n = 0 then toString ip else toString ip ++ "." ++ ratFracDigits 1100 fr

/-- JavaScript number-to-string conversion (template-literal interpolation and
`Number.prototype.toString`).  The exponential notation JavaScript uses for
magnitudes outside [1e-6, 1e21) is not modelled; no claim exercises it. -/
def JSNum.toStr : JSNum → String
  | .nan => "NaN"
  | .inf => "Infinity"
  | .ninf => "-Infinity"
  | .num q => if q.n < 0 then "-" ++ ratToDecimal (Q.neg q) else ratToDecimal q

/-- Whitespace in the sense of JavaScript `trim` and the `\s` class. -/
def jsIsWs (c : Char) : Bool :=
  c == ' ' || c == '\t' || c == '\n' || c == '\r' || c == '\x0b' || c == '\x0c'

/-- JavaScript `String.prototype.trim`. -/
def jsTrim (s : String) : String :=
  ⟨((s.data.dropWhile jsIsWs).reverse.dropWhile jsIsWs).reverse⟩

/-- Split a character list on a separator character, JavaScript
`split(sep)` style (keeps empty pieces). -/
def splitOnChar (sep : Char) : List Char → List (List Char)
  | [] => [[]]
  | c :: rest =>
    let r := splitOnChar sep rest
    if c = sep then [] :: r
    else
      match r with
      | [] => [[c]]
      | h :: t => (c :: h) :: t

/-- JavaScript `s.split(sep)` for a single-character separator string. -/
def jsSplitChar (sep : Char) (s : String) : List String :=
  (splitOnChar sep s.data).map (fun l => String.mk l)

/-- JavaScript split on the regex matching `\n` optionally preceded by
`\r` (used by the PLY parsers). -/
def splitOnCrNl : List Char → List (List Char)
  | [] => [[]]
  | '\r' :: '\n' :: rest => [] :: splitOnCrNl rest
  | '\n' :: rest => [] :: splitOnCrNl rest
  | c :: rest =>
    match splitOnCrNl rest with
    | [] => [[c]]
    | h :: t => (c :: h) :: t

/-- String version of `splitOnCrNl`. -/
def jsSplitCrNl (s : String) : List String :=
  (splitOnCrNl s.data).map (fun l => String.mk l)

/-- Core of JavaScript split on the regex of one-or-more whitespace: pieces
separated by maximal whitespace runs, with an empty leading (resp. trailing)
piece when the string starts (resp. ends) with whitespace. -/
def splitWsCore : List Char → List String
  | [] => [""]
  | c :: rest =>
    let r := splitWsCore rest
    if jsIsWs c then
      match rest with
      | [] => ["", ""]
      | d :: _ => if jsIsWs d then r else "" :: r
    else
      match r with
      | [] => [String.singleton c]
      | h :: t => (String.singleton c ++ h) :: t

/-- String version of `splitWsCore`. -/
def jsSplitWs (s : String) : List String := splitWsCore s.data

/-- JavaScript `s.startsWith(p)` (kernel-reducible prefix test). -/
def strStartsWith (s p : String) : Bool := p.data.isPrefixOf s.data

/-- First index at which `needle` occurs as a substring of `hay`
(JavaScript `indexOf`, as an `Option`). -/
def subIndex (needle : List Char) : List Char → Option Nat
  | [] => if needle.isEmpty then some 0 else none
  | c :: rest =>
    if needle.isPrefixOf (c :: rest) then some 0
    else (subIndex needle rest).map (· + 1)

/-- JavaScript `hay.indexOf(needle)` as an `Option`. -/
def strIndexOf (hay needle : String) : Option Nat := subIndex needle.data hay.data

/-- JavaScript `hay.includes(needle)`. -/
def strIncludes (hay needle : String) : Bool := (strIndexOf hay needle).isSome

/-- Leading decimal digits of a character list, with the rest. -/
def takeDigits : List Char → List Nat × List Char
  | [] => ([], [])
  | c :: rest =>
    if c.isDigit then
      let p := takeDigits rest
      ((c.toNat - 48) :: p.1, p.2)
    else ([], c :: rest)

/-- Value of a digit list read in base ten. -/
def digitsToNat (ds : List Nat) : Nat := ds.foldl (fun a d => a * 10 + d) 0

/-- Optional leading sign of a numeric literal. -/
def readSign : List Char → Bool × List Char
  | '-' :: rest => (true, rest)
  | '+' :: rest => (false, rest)
  | cs => (false, cs)

/-- Exponent value after the `e`/`E` marker (0 when no digits follow,
matching JavaScript `parseFloat` which then ignores the marker). -/
def parseExpAfterE (cs : List Char) : ℤ :=
  let p := readSign cs
  let d := takeDigits p.2
  if d.1 = [] then 0
  else if p.1 then -(digitsToNat d.1 : ℤ) else (digitsToNat d.1 : ℤ)

/-- Optional exponent part of a numeric literal. -/
def parseExpPart : List Char → ℤ
  | 'e' :: rest => parseExpAfterE rest
  | 'E' :: rest => parseExpAfterE rest
  | _ => 0

/-- JavaScript `parseFloat` (exact-rational semantics; IEEE rounding is not
modelled). -/
def jsParseFloat (s : String) : JSNum :=
  let cs := s.data.dropWhile jsIsWs
  let sg := readSign cs
  if "Infinity".data.isPrefixOf sg.2 then (if sg.1 then .ninf else .inf)
  else
    let ip := takeDigits sg.2
    let fp : List Nat × List Char :=
      match ip.2 with
      | '.' :: rest => takeDigits rest
      | _ => ([], ip.2)
    if ip.1 = [] ∧ fp.1 = [] then .nan
    else
      let mant := Q.add (Q.ofNat (digitsToNat ip.1)) (mkQ (digitsToNat fp.1 : ℤ) (10 ^ fp.1.length))
      let e := parseExpPart fp.2
      let v := Q.mul mant (qPowInt 10 e)
      .num (if sg.1 then Q.neg v else v)

/-- JavaScript `parseInt(s, 10)`. -/
def jsParseInt (s : String) : JSNum :=
  let cs := s.data.dropWhile jsIsWs
  let sg := readSign cs
  let d := takeDigits sg.2
  if d.1 = [] then .nan
  else .num (if sg.1 then ⟨-(digitsToNat d.1 : ℤ), 1⟩ else ⟨(digitsToNat d.1 : ℤ), 1⟩)

/-- JavaScript array indexing `l[i]` with a numeric index: `undefined`
(modelled as `none`) unless `i` is an integer in range. -/
def jsGetElem {α : Type} (l : List α) (i : JSNum) : Option α :=
  match i with
  | .num q => if q.d = 1 ∧ 0 ≤ q.n ∧ q.n < l.length then l.get? q.n.toNat else none
  | _ => none

/-- Relative index normalization of JavaScript `Array.prototype.slice`. -/
def jsRelIndex (len : Nat) (i : JSNum) : Nat :=
  match i with
  | .nan => 0
  | .inf => len
  | .ninf => 0
  | .num q =>
    let t := q.truncI
    if t < 0 then ((len : ℤ) + t).toNat
    else min t.toNat len

/-- JavaScript `l.slice(s, e)` with numeric bounds. -/
def jsSlice {α : Type} (l : List α) (s e : JSNum) : List α :=
  (l.take (jsRelIndex l.length e)).drop (jsRelIndex l.length s)

/-- JavaScript `x || 0` on a possibly-absent number (`undefined`, `NaN`,
`0` and `-0` all give `0`). -/
def orZero : Option JSNum → JSNum
  | some v => if v.truthy then v else jn 0
  | none => jn 0

/-- Byte buffers (each entry a byte value in [0, 256)). -/
abbrev Bytes := List Nat

/-- Byte at an offset (reads are bounds-checked by the embedded parsers
before this is consulted). -/
def byteAt (b : Bytes) (i : Nat) : Nat := (b.get? i).getD 0

/-- Little-endian unsigned word of `n` bytes at `off`. -/
def leWord (b : Bytes) (off : Nat) : Nat → Nat
  | 0 => 0
  | m + 1 => byteAt b off + 256 * leWord b (off + 1) m

/-- Big-endian unsigned word of `n` bytes at `off`. -/
def beWord (b : Bytes) (off : Nat) : Nat → Nat
  | 0 => 0
  | m + 1 => byteAt b (off + m) + 256 * beWord b off m

/-- Unsigned word at an offset with a chosen endianness. -/
def wordAt (b : Bytes) (off n : Nat) (le : Bool) : Nat :=
  if le then leWord b off n else beWord b off n

/-- Reinterpret an unsigned word as a two's-complement signed integer. -/
def toSigned (w bits : Nat) : ℤ :=
  if 2 ^ (bits - 1) ≤ w then (w : ℤ) - 2 ^ bits else (w : ℤ)

/-- Exact value of an IEEE-754 binary floating-point bit pattern with the
given exponent and fraction widths. -/
def decodeFloatBits (expBits fracBits w : Nat) : JSNum :=
  let sign := w / 2 ^ (expBits + fracBits)
  let ex := (w / 2 ^ fracBits) % 2 ^ expBits
  let frac := w % 2 ^ fracBits
  let bias : ℤ := 2 ^ (expBits - 1) - 1
  if ex = 2 ^ expBits - 1 then
    if frac = 0 then (if sign = 1 then .ninf else .inf) else .nan
  else
    let mag : Q :=
      if ex = 0 then Q.mul (Q.ofNat frac) (qPowInt 2 (1 - bias - fracBits))
      else Q.mul (Q.ofNat (2 ^ fracBits + frac)) (qPowInt 2 ((ex : ℤ) - bias - fracBits))
    .num (if sign = 1 then Q.neg mag else mag)

/-- `DataView.getFloat32`. -/
def getFloat32 (b : Bytes) (off : Nat) (le : Bool) : JSNum :=
  decodeFloatBits 8 23 (wordAt b off 4 le)

/-- `DataView.getFloat64`. -/
def getFloat64 (b : Bytes) (off : Nat) (le : Bool) : JSNum :=
  decodeFloatBits 11 52 (wordAt b off 8 le)

/-- `TextDecoder` with a byte-per-character encoding, modelled as the
identity code-point mapping (the embedded parsers only compare the decoded
text against ASCII markers and split it on ASCII newlines, for which this
agrees with the `ascii`/`utf-8` decoders on the inputs exercised). -/
def asciiDecode (b : Bytes) : String := ⟨b.map Char.ofNat⟩

/-- The two-variant outcome type of `shared/utils/result.ts`. -/
inductive Result (α ε : Type) : Type where
  | ok (value : α)
  | err (error : ε)
deriving DecidableEq

namespace Result

/-- `map` of `result.ts`. -/
def map {α β ε : Type} (r : Result α ε) (f : α → β) : Result β ε :=
  match r with
  | .ok v => .ok (f v)
  | .err e => .err e

/-- `mapErr` of `result.ts`. -/
def mapErr {α ε φ : Type} (r : Result α ε) (f : ε → φ) : Result α φ :=
  match r with
  | .ok v => .ok v
  | .err e => .err (f e)

/-- `andThen` (monadic bind) of `result.ts`. -/
def andThen {α β ε : Type} (r : Result α ε) (f : α → Result β ε) : Result β ε :=
  match r with
  | .ok v => f v
  | .err e => .err e

/-- `isOk` of `result.ts`. -/
def isOk {α ε : Type} : Result α ε → Bool
  | .ok _ => true
  | .err _ => false

/-- `all` of `result.ts`: collect values, stopping at the first failure. -/
def all {α ε : Type} : List (Result α ε) → Result (List α) ε
  | [] => .ok []
  | .err e :: _ => .err e
  | .ok v :: rest => (all rest).map (fun vs => v :: vs)

/-- `traverse` of `result.ts`. -/
def traverseList {α β ε : Type} (f : α → Result β ε) (l : List α) : Result (List β) ε :=
  all (l.map f)

end Result

/-- `zipArray` of `result.ts` (truncates to the shorter list). -/
def zipArray {α β : Type} (a : List α) (b : List β) : List (α × β) := a.zip b

/-- `takeArray` of `result.ts` (`arr.slice(0, count)` with a numeric count). -/
def takeArray {α : Type} (count : JSNum) (l : List α) : List α :=
  jsSlice l (jn 0) count

/-- `dropArray` of `result.ts` (`arr.slice(count)` with a numeric count). -/
def dropArray {α : Type} (count : JSNum) (l : List α) : List α :=
  jsSlice l count .inf

/-! ## Scene data model (`shared/types/scene.ts`) -/

/-- Immutable 3-vector of `scene.ts`. -/
structure Vec3 : Type where
  x : JSNum
  y : JSNum
  z : JSNum
deriving DecidableEq

/-- Immutable 2-vector of `scene.ts`. -/
structure Vec2 : Type where
  x : JSNum
  y : JSNum
deriving DecidableEq

/-- Vertex of `scene.ts`: optional attributes are absent, not zero-filled. -/
structure Vertex : Type where
  position : Vec3
  normal : Option Vec3
  texCoord : Option Vec2
deriving DecidableEq

/-- Face of `scene.ts`; indices are JavaScript numbers referencing the owning
mesh's vertex list. -/
structure Face : Type where
  indices : List JSNum
  material : Option String
deriving DecidableEq

/-- Material of `scene.ts`. -/
structure Material : Type where
  name : String
  ambient : Option Vec3
  diffuse : Option Vec3
  specular : Option Vec3
  shininess : Option JSNum
  textureMap : Option String
deriving DecidableEq

/-- Axis-aligned bounding box of `scene.ts` metadata. -/
structure BBox : Type where
  min : Vec3
  max : Vec3
deriving DecidableEq

/-- Scene metadata of `scene.ts`. -/
structure SceneMetadata : Type where
  format : String
  vertexCount : JSNum
  faceCount : JSNum
  boundingBox : Option BBox
deriving DecidableEq

/-- Mesh of `scene.ts`. -/
structure Mesh : Type where
  name : String
  vertices : List Vertex
  faces : List Face
  material : Option Material
deriving DecidableEq

/-- Scene of `scene.ts`: the canonical unit exchanged between parsers,
validator and encoders. -/
structure Scene : Type where
  meshes : List Mesh
  materials : List Material
  metadata : SceneMetadata
deriving DecidableEq

/-- `createVec3` of `scene.ts`. -/
def createVec3 (x y z : JSNum) : Vec3 := ⟨x, y, z⟩

/-- `createVec2` of `scene.ts`. -/
def createVec2 (x y : JSNum) : Vec2 := ⟨x, y⟩

/-- `createVertex` of `scene.ts`. -/
def createVertex (position : Vec3) (normal : Option Vec3) (texCoord : Option Vec2) : Vertex :=
  ⟨position, normal, texCoord⟩

/-- `createFace` of `scene.ts`. -/
def createFace (indices : List JSNum) (material : Option String) : Face :=
  ⟨indices, material⟩

/-- `createMesh` of `scene.ts`. -/
def createMesh (name : String) (vertices : List Vertex) (faces : List Face)
    (material : Option Material) : Mesh :=
  ⟨name, vertices, faces, material⟩

/-- `createScene` of `scene.ts`. -/
def createScene (meshes : List Mesh) (materials : List Material)
    (metadata : SceneMetadata) : Scene :=
  ⟨meshes, materials, metadata⟩

/-! ## Scene validator (the `validators/validators.ts` source, provided as an
unnamed file of the repository) -/

/-- Apostrophe character, for error-message fidelity. -/
def apos : String := String.singleton (Char.ofNat 39)

/-- Validation error of `validators.ts`. -/
structure ValidationError : Type where
  message : String
  code : String
  path : Option String
deriving DecidableEq

/-- `validateNumber` of `validators.ts`: a number must be finite. -/
def validateNumber (value : JSNum) : Result JSNum ValidationError :=
  if !value.isFinite then
    .err ⟨"Invalid number: " ++ value.toStr, "INVALID_NUMBER", none⟩
  else .ok value

/-- `validateVec2` of `validators.ts`. -/
def validateVec2 (vec : Vec2) : Result Vec2 ValidationError :=
  match validateNumber vec.x with
  | .err e => .err { e with path := some "vec2.x" }
  | .ok _ =>
    match validateNumber vec.y with
    | .err e => .err { e with path := some "vec2.y" }
    | .ok _ => .ok vec

/-- `validateVec3` of `validators.ts`. -/
def validateVec3 (vec : Vec3) : Result Vec3 ValidationError :=
  match validateNumber vec.x with
  | .err e => .err { e with path := some "vec3.x" }
  | .ok _ =>
    match validateNumber vec.y with
    | .err e => .err { e with path := some "vec3.y" }
    | .ok _ =>
      match validateNumber vec.z with
      | .err e => .err { e with path := some "vec3.z" }
      | .ok _ => .ok vec

/-- `validateVertex` of `validators.ts`: the position, and the normal when
present, must have finite components. -/
def validateVertex (vertex : Vertex) : Result Vertex ValidationError :=
  match validateVec3 vertex.position with
  | .err e => .err { e with path := some "vertex.position" }
  | .ok _ =>
    match vertex.normal with
    | some n =>
      match validateVec3 n with
      | .err e => .err { e with path := some "vertex.normal" }
      | .ok _ => .ok vertex
    | none => .ok vertex

/-- Loop body of `validateFaceIndices`: first offending index, if any. -/
def checkIndicesLoop (vertexCount : Nat) : List JSNum → Option ValidationError
  | [] => none
  | i :: rest =>
    if !i.isIntegerJS || JSNum.lt i (jn 0) || JSNum.le (jn vertexCount) i then
      some ⟨"Face index " ++ i.toStr ++ " is out of bounds (0-" ++
              toString ((vertexCount : ℤ) - 1) ++ ")",
            "INDEX_OUT_OF_BOUNDS", none⟩
    else checkIndicesLoop vertexCount rest

/-- `validateFaceIndices` of `validators.ts`. -/
def validateFaceIndices (indices : List JSNum) (vertexCount : Nat) :
    Result (List JSNum) ValidationError :=
  if indices.length < 3 then
    .err ⟨"Face must have at least 3 indices", "INVALID_FACE_SIZE", none⟩
  else
    match checkIndicesLoop vertexCount indices with
    | some e => .err e
    | none => .ok indices

/-- Vertex loop of `validateMesh` (index-carrying, for path reporting). -/
def validateVerticesLoop (name : String) : Nat → List Vertex → Option ValidationError
  | _, [] => none
  | i, v :: rest =>
    match validateVertex v with
    | .err e =>
      some { e with path := some ("mesh." ++ name ++ ".vertices[" ++ toString i ++ "]") }
    | .ok _ => validateVerticesLoop name (i + 1) rest

/-- Face loop of `validateMesh` (index-carrying, for path reporting). -/
def validateFacesLoop (name : String) (vertexCount : Nat) :
    Nat → List Face → Option ValidationError
  | _, [] => none
  | i, f :: rest =>
    match validateFaceIndices f.indices vertexCount with
    | .err e =>
      some { e with path := some ("mesh." ++ name ++ ".faces[" ++ toString i ++ "]") }
    | .ok _ => validateFacesLoop name vertexCount (i + 1) rest

/-- `validateMesh` of `validators.ts`. -/
def validateMesh (mesh : Mesh) : Result Mesh ValidationError :=
  if mesh.vertices.length = 0 then
    .err ⟨"Mesh must have at least one vertex", "EMPTY_MESH", some ("mesh." ++ mesh.name)⟩
  else
    match validateVerticesLoop mesh.name 0 mesh.vertices with
    | some e => .err e
    | none =>
      match validateFacesLoop mesh.name mesh.vertices.length 0 mesh.faces with
      | some e => .err e
      | none => .ok mesh

/-- Mesh loop of `validateScene` (the mesh error is propagated unchanged). -/
def validateMeshesLoop : List Mesh → Option ValidationError
  | [] => none
  | m :: rest =>
    match validateMesh m with
    | .err e => some e
    | .ok _ => validateMeshesLoop rest

/-- The `reduce` over meshes summing vertex-list lengths in `validateScene`. -/
def totalVertexCount (meshes : List Mesh) : Nat :=
  (meshes.map (fun m => m.vertices.length)).sum

/-- The `reduce` over meshes summing face-list lengths in `validateScene`. -/
def totalFaceCount (meshes : List Mesh) : Nat :=
  (meshes.map (fun m => m.faces.length)).sum

/-- `validateScene` of `validators.ts`: at least one mesh, all meshes valid,
metadata totals consistent, short-circuiting at the first violation. -/
def validateScene (scene : Scene) : Result Scene ValidationError :=
  if scene.meshes.length = 0 then
    .err ⟨"Scene must have at least one mesh", "EMPTY_SCENE", none⟩
  else
    match validateMeshesLoop scene.meshes with
    | some e => .err e
    | none =>
      let totalVertices := totalVertexCount scene.meshes
      let totalFaces := totalFaceCount scene.meshes
      if !(scene.metadata.vertexCount.strictEq (jn totalVertices)) then
        .err ⟨"Metadata vertex count (" ++ scene.metadata.vertexCount.toStr ++
                ") doesn" ++ apos ++ "t match actual count (" ++ toString totalVertices ++ ")",
              "METADATA_MISMATCH", some "scene.metadata.vertexCount"⟩
      else if !(scene.metadata.faceCount.strictEq (jn totalFaces)) then
        .err ⟨"Metadata face count (" ++ scene.metadata.faceCount.toStr ++
                ") doesn" ++ apos ++ "t match actual count (" ++ toString totalFaces ++ ")",
              "METADATA_MISMATCH", some "scene.metadata.faceCount"⟩
      else .ok scene

/-! ### The §4.5 invariants, stated independently of the validator code.
These mirror the claim's list of invariants (C2); face indices are required
to be integral because §3 declares `Face.indices` a sequence of ints. -/

/-- Finiteness of all three components of a vector. -/
def finiteVec3 (v : Vec3) : Bool := v.x.isFinite && v.y.isFinite && v.z.isFinite

/-- Invariant of a single vertex: finite position, finite normal if present. -/
def vertexInv (v : Vertex) : Bool :=
  finiteVec3 v.position && (v.normal.all finiteVec3)

/-- A single face index is an integer within `[0, vertexCount)` (§3 declares
`Face.indices` a sequence of ints). -/
def goodIdx (vertexCount : Nat) (i : JSNum) : Bool :=
  i.isIntegerJS && JSNum.le (jn 0) i && JSNum.lt i (jn vertexCount)

/-- Invariant of a single face against a vertex count: at least 3 indices,
each an integer within `[0, vertexCount)`. -/
def faceInv (vertexCount : Nat) (f : Face) : Bool :=
  decide (3 ≤ f.indices.length) && f.indices.all (goodIdx vertexCount)

/-- Invariant of a single mesh: nonempty, all vertices and faces valid. -/
def meshInv (m : Mesh) : Bool :=
  !m.vertices.isEmpty && m.vertices.all vertexInv &&
    m.faces.all (faceInv m.vertices.length)

/-- The full §4.5 invariant of a scene, as enumerated by the claim. -/
def sceneInv (s : Scene) : Bool :=
  !s.meshes.isEmpty && s.meshes.all meshInv &&
    s.metadata.vertexCount == jn (totalVertexCount s.meshes) &&
    s.metadata.faceCount == jn (totalFaceCount s.meshes)

/-! ## OBJ parser (`shared/parsers/obj.ts`) -/

/-- Outcome of running a JavaScript function that may also throw: a returned
`Result` value, or an uncaught exception with its message. -/
inductive POutcome (α ε : Type) : Type where
  | ok (value : α)
  | err (error : ε)
  | thrown (msg : String)
deriving DecidableEq

/-- JavaScript `Math.min(...xs)` (spread over a list; empty gives Infinity,
NaN propagates). -/
def jsMinList (l : List JSNum) : JSNum := l.foldl JSNum.min2 .inf

/-- JavaScript `Math.max(...xs)`. -/
def jsMaxList (l : List JSNum) : JSNum := l.foldl JSNum.max2 .ninf

namespace OBJ

/-- `ParseError` of `obj.ts`. -/
structure ParseError : Type where
  message : String
  line : ℤ
  column : Option ℤ
deriving DecidableEq

/-- One `posIdx[/texIdx][/normIdx]` reference of an `f` directive, with
1-based indices already converted to 0-based. -/
structure FaceRef : Type where
  posIndex : JSNum
  texIndex : Option JSNum
  normIndex : Option JSNum
deriving DecidableEq

/-- A face as collected during the line scan, before index remapping. -/
structure PendingFace : Type where
  verts : List FaceRef
  material : Option String
deriving DecidableEq

/-- Accumulator of the line scan of `parseOBJ`. -/
structure OBJAcc : Type where
  positions : List Vec3
  normals : List Vec3
  texCoords : List Vec2
  faces : List PendingFace
  currentMaterial : Option String
deriving DecidableEq

/-- `parseLine` of `obj.ts`: split a line into directive and arguments,
flagging empty/comment lines as a skippable error. -/
def parseLine (line : String) : Result (String × List String) ParseError :=
  let trimmed := jsTrim line
  if trimmed = "" || strStartsWith trimmed "#" then .err ⟨"Empty or comment line", 0, none⟩
  else
    let parts := jsSplitWs trimmed
    .ok (parts.headD "", parts.tail)

/-- `parseVertexPosition` of `obj.ts`. -/
def parseVertexPosition (parts : List String) : Result Vec3 ParseError :=
  if parts.length < 3 then
    .err ⟨"Vertex position requires at least 3 components", 0, none⟩
  else
    let x := jsParseFloat (parts.getD 0 "")
    let y := jsParseFloat (parts.getD 1 "")
    let z := jsParseFloat (parts.getD 2 "")
    if x = .nan ∨ y = .nan ∨ z = .nan then
      .err ⟨"Invalid vertex position values", 0, none⟩
    else .ok (createVec3 x y z)

/-- `parseTextureCoord` of `obj.ts`. -/
def parseTextureCoord (parts : List String) : Result Vec2 ParseError :=
  if parts.length < 2 then
    .err ⟨"Texture coordinate requires at least 2 components", 0, none⟩
  else
    let u := jsParseFloat (parts.getD 0 "")
    let v := jsParseFloat (parts.getD 1 "")
    if u = .nan ∨ v = .nan then
      .err ⟨"Invalid texture coordinate values", 0, none⟩
    else .ok ⟨u, v⟩

/-- `parseNormal` of `obj.ts`. -/
def parseNormal (parts : List String) : Result Vec3 ParseError :=
  if parts.length < 3 then
    .err ⟨"Normal requires 3 components", 0, none⟩
  else
    let x := jsParseFloat (parts.getD 0 "")
    let y := jsParseFloat (parts.getD 1 "")
    let z := jsParseFloat (parts.getD 2 "")
    if x = .nan ∨ y = .nan ∨ z = .nan then
      .err ⟨"Invalid normal values", 0, none⟩
    else .ok (createVec3 x y z)

/-- `parseFaceIndex` of `obj.ts`: parse one `v[/vt][/vn]` reference,
converting the 1-based OBJ indices to 0-based. -/
def parseFaceIndex (ref : String) : Result FaceRef ParseError :=
  let parts := jsSplitChar '/' ref
  if parts.headD "" = "" then .err ⟨"Invalid face index: " ++ ref, 0, none⟩
  else
    let vertexIndex := jsParseInt (parts.headD "")
    if vertexIndex = .nan then .err ⟨"Invalid face index: " ++ ref, 0, none⟩
    else
      let posIndex := vertexIndex.sub (jn 1)
      let texIndexRaw : Option JSNum :=
        match parts.get? 1 with
        | some s => if s = "" then none else some ((jsParseInt s).sub (jn 1))
        | none => none
      if texIndexRaw = some .nan then .err ⟨"Invalid texture index: " ++ ref, 0, none⟩
      else
        let normIndexRaw : Option JSNum :=
          match parts.get? 2 with
          | some s => if s = "" then none else some ((jsParseInt s).sub (jn 1))
          | none => none
        if normIndexRaw = some .nan then .err ⟨"Invalid normal index: " ++ ref, 0, none⟩
        else .ok ⟨posIndex, texIndexRaw, normIndexRaw⟩

/-- Reference loop of `parseFace` of `obj.ts`. -/
def parseFaceRefs : List String → Result (List FaceRef) ParseError
  | [] => .ok []
  | p :: rest =>
    match parseFaceIndex p with
    | .err e => .err { e with line := 0 }
    | .ok r => (parseFaceRefs rest).map (fun rs => r :: rs)

/-- `parseFace` of `obj.ts`. -/
def parseFace (parts : List String) : Result (List FaceRef) ParseError :=
  if parts.length < 3 then .err ⟨"Face must have at least 3 vertices", 0, none⟩
  else parseFaceRefs parts

/-- `calculateBoundingBox` of `obj.ts`. -/
def calculateBoundingBox (vertices : List Vertex) : Option BBox :=
  if vertices.length = 0 then none
  else
    let ps := vertices.map (fun v => v.position)
    some ⟨createVec3 (jsMinList (ps.map (fun p => p.x))) (jsMinList (ps.map (fun p => p.y)))
            (jsMinList (ps.map (fun p => p.z))),
          createVec3 (jsMaxList (ps.map (fun p => p.x))) (jsMaxList (ps.map (fun p => p.y)))
            (jsMaxList (ps.map (fun p => p.z)))⟩

/-- The line loop of `parseOBJ` of `obj.ts` (`i` is the 0-based index of the
current line; errors carry `i + 1`). -/
def scanLinesGo : OBJAcc → Nat → List String → Result OBJAcc ParseError
  | acc, _, [] => .ok acc
  | acc, i, line :: rest =>
    match parseLine line with
    | .err _ => scanLinesGo acc (i + 1) rest
    | .ok (ty, data) =>
      if ty = "v" then
        match parseVertexPosition data with
        | .err e => .err { e with line := ((i : ℤ) + 1) }
        | .ok pos => scanLinesGo { acc with positions := acc.positions ++ [pos] } (i + 1) rest
      else if ty = "vt" then
        match parseTextureCoord data with
        | .err e => .err { e with line := ((i : ℤ) + 1) }
        | .ok t => scanLinesGo { acc with texCoords := acc.texCoords ++ [t] } (i + 1) rest
      else if ty = "vn" then
        match parseNormal data with
        | .err e => .err { e with line := ((i : ℤ) + 1) }
        | .ok nv => scanLinesGo { acc with normals := acc.normals ++ [nv] } (i + 1) rest
      else if ty = "f" then
        match parseFace data with
        | .err e => .err { e with line := ((i : ℤ) + 1) }
        | .ok verts =>
          scanLinesGo { acc with faces := acc.faces ++ [⟨verts, acc.currentMaterial⟩] } (i + 1) rest
      else if ty = "usemtl" then
        scanLinesGo
          (if 0 < data.length then { acc with currentMaterial := some (data.headD "") } else acc)
          (i + 1) rest
      else scanLinesGo acc (i + 1) rest

/-- The deduplication key of `getOrCreateVertex` of `obj.ts`:
the synthesized string with `-1` standing for an absent index. -/
def refKey (r : FaceRef) : String :=
  r.posIndex.toStr ++ "-" ++ (r.texIndex.getD (jn (-1))).toStr ++ "-" ++
    (r.normIndex.getD (jn (-1))).toStr

/-- State of the deduplication map and canonical vertex list of `parseOBJ`. -/
structure DedupState : Type where
  vertexMap : List (String × Nat)
  vertices : List Vertex
deriving DecidableEq

/-- `Map.prototype.get` on the insertion-ordered key/index list. -/
def lookupKey (m : List (String × Nat)) (k : String) : Option Nat :=
  (m.find? (fun p => p.1 == k)).map (fun p => p.2)

/-- The canonical `Vertex` built by `getOrCreateVertex` from a reference whose
position exists: a dangling or absent normal/texcoord index yields an absent
attribute (`undefined` in the source). -/
def buildVertex (normals : List Vec3) (texCoords : List Vec2) (r : FaceRef)
    (position : Vec3) : Vertex :=
  let normal := match r.normIndex with
    | some ni => jsGetElem normals ni
    | none => none
  let texCoord := match r.texIndex with
    | some ti => (jsGetElem texCoords ti).map (fun tc => createVec2 tc.x tc.y)
    | none => none
  createVertex position normal texCoord

/-- `getOrCreateVertex` of `obj.ts`.  An out-of-bounds position index throws
(`Except.error` models the uncaught `throw new Error(...)`). -/
def getOrCreateVertex (positions normals : List Vec3) (texCoords : List Vec2)
    (st : DedupState) (r : FaceRef) : Except String (Nat × DedupState) :=
  let key := refKey r
  match lookupKey st.vertexMap key with
  | some i => .ok (i, st)
  | none =>
    match jsGetElem positions r.posIndex with
    | none => .error ("Position index " ++ r.posIndex.toStr ++ " out of bounds")
    | some position =>
      let vertex := buildVertex normals texCoords r position
      let index := st.vertices.length
      .ok (index, ⟨st.vertexMap ++ [(key, index)], st.vertices ++ [vertex]⟩)

/-- Per-face inner loop of the face rebuild of `parseOBJ`. -/
def rebuildFaceRefs (positions normals : List Vec3) (texCoords : List Vec2) :
    List FaceRef → DedupState → Except String (List JSNum × DedupState)
  | [], st => .ok ([], st)
  | r :: rs, st =>
    match getOrCreateVertex positions normals texCoords st r with
    | .error m => .error m
    | .ok (i, st2) =>
      match rebuildFaceRefs positions normals texCoords rs st2 with
      | .error m => .error m
      | .ok (is, st3) => .ok (jn i :: is, st3)

/-- Face loop of the face rebuild of `parseOBJ`. -/
def rebuildFacesGo (positions normals : List Vec3) (texCoords : List Vec2) :
    List PendingFace → DedupState → Except String (List Face × DedupState)
  | [], st => .ok ([], st)
  | f :: fs, st =>
    match rebuildFaceRefs positions normals texCoords f.verts st with
    | .error m => .error m
    | .ok (is, st2) =>
      match rebuildFacesGo positions normals texCoords fs st2 with
      | .error m => .error m
      | .ok (gs, st3) => .ok (createFace is f.material :: gs, st3)

/-- The face rebuild of `parseOBJ`: canonical vertices (in creation order)
and faces re-indexed against them. -/
def rebuildFaces (positions normals : List Vec3) (texCoords : List Vec2)
    (faces : List PendingFace) : Except String (List Vertex × List Face) :=
  match rebuildFacesGo positions normals texCoords faces ⟨[], []⟩ with
  | .error m => .error m
  | .ok (fs, st) => .ok (st.vertices, fs)

/-- `parseOBJ` of `obj.ts`, with uncaught exceptions surfaced as `.thrown`. -/
def parseOBJ (content : String) : POutcome Scene ParseError :=
  let lines := jsSplitChar '\n' content
  match scanLinesGo ⟨[], [], [], [], none⟩ 0 lines with
  | .err e => .err e
  | .ok acc =>
    match rebuildFaces acc.positions acc.normals acc.texCoords acc.faces with
    | .error msg => .thrown msg
    | .ok (builtVertices, rebuiltFaces) =>
      let vertices :=
        if acc.faces.length = 0 ∧ 0 < acc.positions.length then
          builtVertices ++ acc.positions.map (fun p => createVertex p none none)
        else builtVertices
      if vertices.length = 0 then .err ⟨"No vertices found in OBJ file", 0, none⟩
      else
        let mesh := createMesh "default" vertices rebuiltFaces none
        let boundingBox := calculateBoundingBox vertices
        let scene := createScene [mesh] []
          ⟨"OBJ", jn vertices.length, jn rebuiltFaces.length, boundingBox⟩
        match validateScene scene with
        | .err e => .err ⟨"Validation error: " ++ e.message, 0, none⟩
        | .ok v => .ok v

end OBJ

/-! ## OBJ encoder (`shared/converters/obj.ts`) -/

namespace OBJConv

/-- `fmt` of `converters/obj.ts` (stable float rendering). -/
def fmt (x : JSNum) : String := x.toStr

/-- Per-vertex global indices recorded while emitting a mesh's vertices. -/
structure VertRec : Type where
  pos : Nat
  tex : Option Nat
  norm : Option Nat
deriving DecidableEq

/-- Vertex emission loop of `toOBJ`: emits `v`/`vt`/`vn` lines and records
each vertex's global 1-based indices, threading the three global counters. -/
def emitVertices : List Vertex → Nat → Nat → Nat →
    List String × List VertRec × Nat × Nat × Nat
  | [], p, t, n => ([], [], p, t, n)
  | v :: vs, p, t, n =>
    let p2 := p + 1
    let vLine := "v " ++ fmt v.position.x ++ " " ++ fmt v.position.y ++ " " ++ fmt v.position.z
    let texPart : List String × Nat × Option Nat :=
      match v.texCoord with
      | some tc => (["vt " ++ fmt tc.x ++ " " ++ fmt tc.y], t + 1, some (t + 1))
      | none => ([], t, none)
    let normPart : List String × Nat × Option Nat :=
      match v.normal with
      | some nv => (["vn " ++ fmt nv.x ++ " " ++ fmt nv.y ++ " " ++ fmt nv.z], n + 1, some (n + 1))
      | none => ([], n, none)
    match emitVertices vs p2 texPart.2.1 normPart.2.1 with
    | (restLines, restRecs, p3, t3, n3) =>
      (vLine :: (texPart.1 ++ normPart.1 ++ restLines),
        ⟨p2, texPart.2.2, normPart.2.2⟩ :: restRecs, p3, t3, n3)

/-- Mesh emission loop of `toOBJ`: `o` line then the mesh's vertices. -/
def emitMeshes : List Mesh → Nat → Nat → Nat → List String × List (List VertRec)
  | [], _, _, _ => ([], [])
  | m :: ms, p, t, n =>
    let header := "o " ++ (if m.name = "" then "mesh" else m.name)
    match emitVertices m.vertices p t n with
    | (vlines, recs, p2, t2, n2) =>
      match emitMeshes ms p2 t2 n2 with
      | (rest, restRecs) => (header :: (vlines ++ rest), recs :: restRecs)

/-- One face-reference entry of an `f` line; a face index with no recorded
vertex throws (caught by `toOBJ` and turned into an error). -/
def facePart (vertIndices : List VertRec) (meshName : String) (i : JSNum) :
    Except String String :=
  match jsGetElem vertIndices i with
  | none => .error ("Face index " ++ i.toStr ++ " out of bounds for mesh " ++ meshName)
  | some vr =>
    let p := toString vr.pos
    match vr.tex, vr.norm with
    | some t, some n => .ok (p ++ "/" ++ toString t ++ "/" ++ toString n)
    | some t, none => .ok (p ++ "/" ++ toString t)
    | none, some n => .ok (p ++ "//" ++ toString n)
    | none, none => .ok p

/-- All reference entries of one `f` line. -/
def faceParts (vertIndices : List VertRec) (meshName : String) :
    List JSNum → Except String (List String)
  | [] => .ok []
  | i :: is =>
    match facePart vertIndices meshName i with
    | .error m => .error m
    | .ok s =>
      match faceParts vertIndices meshName is with
      | .error m => .error m
      | .ok ss => .ok (s :: ss)

/-- Face-line loop for one mesh. -/
def emitFaces (vertIndices : List VertRec) (meshName : String) :
    List Face → Except String (List String)
  | [] => .ok []
  | f :: fs =>
    match faceParts vertIndices meshName f.indices with
    | .error m => .error m
    | .ok parts =>
      match emitFaces vertIndices meshName fs with
      | .error m => .error m
      | .ok rest => .ok (("f " ++ String.intercalate " " parts) :: rest)

/-- Face emission loop over all meshes (with their recorded indices). -/
def emitMeshFaces : List (Mesh × List VertRec) → Except String (List String)
  | [] => .ok []
  | (m, recs) :: rest =>
    let mtl : List String :=
      match m.material with
      | some mat => if mat.name ≠ "" then ["usemtl " ++ mat.name] else []
      | none => []
    match emitFaces recs m.name m.faces with
    | .error msg => .error msg
    | .ok flines =>
      match emitMeshFaces rest with
      | .error msg => .error msg
      | .ok restLines => .ok (mtl ++ flines ++ restLines)

/-- `toOBJ` of `converters/obj.ts`: Scene to OBJ text, with the caught
exception path surfacing as an error message. -/
def toOBJ (scene : Scene) : Result String String :=
  let header := ["# Exported by freetheprogs toOBJ",
                 "# format: " ++ scene.metadata.format ++ " -> OBJ"]
  match emitMeshes scene.meshes 0 0 0 with
  | (vlines, recsList) =>
    match emitMeshFaces (scene.meshes.zip recsList) with
    | .error m => .err m
    | .ok flines =>
      .ok (String.intercalate "\n" (header ++ vlines ++ flines) ++ "\n")

end OBJConv

/-! ## PLY parser (`shared/parsers/ply.ts`) -/

namespace PLY

/-- `ParseError` of `ply.ts`. -/
structure ParseError : Type where
  message : String
  line : ℤ
deriving DecidableEq

/-- `PLYElement` of `ply.ts` (properties are kept as names only; this variant
of the parser discards the declared types). -/
structure PLYElement : Type where
  name : String
  count : JSNum
  properties : List String
deriving DecidableEq

/-- `PLYHeader` of `ply.ts`. -/
structure PLYHeader : Type where
  format : String
  version : String
  elements : List (String × PLYElement)
deriving DecidableEq

/-- Assignment into the `elements` record (`elements[name] = elem`). -/
def recSet (m : List (String × PLYElement)) (k : String) (v : PLYElement) :
    List (String × PLYElement) :=
  match m with
  | [] => [(k, v)]
  | (k2, v2) :: rest => if k2 == k then (k, v) :: rest else (k2, v2) :: recSet rest k v

/-- Lookup in the `elements` record. -/
def recGet (m : List (String × PLYElement)) (k : String) : Option PLYElement :=
  (m.find? (fun p => p.1 == k)).map (fun p => p.2)

/-- `parseFormat` of `ply.ts`. -/
def parseFormat (line : String) (lineNumber : ℤ) : Result (String × String) ParseError :=
  let parts := jsSplitWs line
  if parts.length < 3 then .err ⟨"Invalid format line", lineNumber⟩
  else
    let format := parts.getD 1 ""
    let version := parts.getD 2 ""
    if !(format = "ascii" ∨ format = "binary_little_endian" ∨ format = "binary_big_endian") then
      .err ⟨"Unsupported format: " ++ format, lineNumber⟩
    else .ok (format, version)

/-- `parseElement` of `ply.ts`. -/
def parseElement (line : String) (lineNumber : ℤ) : Result PLYElement ParseError :=
  let parts := jsSplitWs line
  if parts.length < 3 then .err ⟨"Invalid element line", lineNumber⟩
  else
    let name := parts.getD 1 ""
    let count := jsParseInt (parts.getD 2 "")
    if count = .nan then .err ⟨"Invalid element count", lineNumber⟩
    else .ok ⟨name, count, []⟩

/-- `parseProperty` of `ply.ts` (keeps only the last token, the name). -/
def parseProperty (line : String) (lineNumber : ℤ) : Result String ParseError :=
  let parts := jsSplitWs line
  if parts.length < 2 then .err ⟨"Invalid property line", lineNumber⟩
  else .ok (parts.getLastD "")

/-- Header loop of `parseHeader` of `ply.ts` (`i` is the 0-based index of the
current line; errors carry `i + 1`; running off the lines yields the
missing-`end_header` error at the total line count). -/
def parseHeaderGo (total : Nat) : Nat → String → String → List (String × PLYElement) →
    Option PLYElement → List String → Result (PLYHeader × Nat) ParseError
  | _, _, _, _, _, [] => .err ⟨"Missing end_header", (total : ℤ)⟩
  | i, fmt, ver, elems, cur, line :: rest =>
    let l := jsTrim line
    if l = "end_header" then .ok (⟨fmt, ver, elems⟩, i + 1)
    else if l = "" || strStartsWith l "comment" then parseHeaderGo total (i + 1) fmt ver elems cur rest
    else if strStartsWith l "format" then
      match parseFormat l ((i : ℤ) + 1) with
      | .err e => .err e
      | .ok fv => parseHeaderGo total (i + 1) fv.1 fv.2 elems cur rest
    else if strStartsWith l "element" then
      match parseElement l ((i : ℤ) + 1) with
      | .err e => .err e
      | .ok el => parseHeaderGo total (i + 1) fmt ver (recSet elems el.name el) (some el) rest
    else if strStartsWith l "property" then
      match cur with
      | none => .err ⟨"Property without element", (i : ℤ) + 1⟩
      | some c =>
        match parseProperty l ((i : ℤ) + 1) with
        | .err e => .err e
        | .ok pname =>
          let c2 : PLYElement := { c with properties := c.properties ++ [pname] }
          parseHeaderGo total (i + 1) fmt ver (recSet elems c2.name c2) (some c2) rest
    else parseHeaderGo total (i + 1) fmt ver elems cur rest

/-- `parseHeader` of `ply.ts`. -/
def parseHeader (lines : List String) : Result (PLYHeader × Nat) ParseError :=
  if jsTrim (lines.headD "") ≠ "ply" then
    .err ⟨"Missing " ++ apos ++ "ply" ++ apos ++ " header", 1⟩
  else parseHeaderGo lines.length 1 "ascii" "1.0" [] none lines.tail

/-- Per-vertex state of `parseAsciiVertexProperties` of `ply.ts`. -/
structure VertexParts : Type where
  position : Option Vec3
  normal : Option Vec3
  texCoord : Option Vec2
deriving DecidableEq

/-- Property loop of `parseAsciiVertexProperties` of `ply.ts`: values are
positionally matched to the declared property names; a missing or invalid
value is an error; color channels are recognized and discarded; unknown
names are ignored. -/
def asciiVertexLoop (values : List JSNum) : List String → Nat → VertexParts →
    Result VertexParts ParseError
  | [], _, st => .ok st
  | prop :: rest, i, st =>
    let value := (values.get? i).getD .nan
    if value = .nan then .err ⟨"Invalid vertex property value for " ++ prop, -1⟩
    else
      let st2 : VertexParts :=
        if prop = "x" then
          { st with position := some (match st.position with
              | none => createVec3 value (jn 0) (jn 0)
              | some p => createVec3 value p.y p.z) }
        else if prop = "y" then
          { st with position := some (match st.position with
              | none => createVec3 (jn 0) value (jn 0)
              | some p => createVec3 p.x value p.z) }
        else if prop = "z" then
          { st with position := some (match st.position with
              | none => createVec3 (jn 0) (jn 0) value
              | some p => createVec3 p.x p.y value) }
        else if prop = "nx" then
          { st with normal := some (match st.normal with
              | none => createVec3 value (jn 0) (jn 0)
              | some p => createVec3 value p.y p.z) }
        else if prop = "ny" then
          { st with normal := some (match st.normal with
              | none => createVec3 (jn 0) value (jn 0)
              | some p => createVec3 p.x value p.z) }
        else if prop = "nz" then
          { st with normal := some (match st.normal with
              | none => createVec3 (jn 0) (jn 0) value
              | some p => createVec3 p.x p.y value) }
        else if prop = "s" || prop = "u" || prop = "texture_u" then
          { st with texCoord := some (match st.texCoord with
              | none => createVec2 value (jn 0)
              | some t => createVec2 value t.y) }
        else if prop = "t" || prop = "v" || prop = "texture_v" then
          { st with texCoord := some (match st.texCoord with
              | none => createVec2 (jn 0) value
              | some t => createVec2 t.x value) }
        else st
      asciiVertexLoop values rest (i + 1) st2

/-- `parseAsciiVertexProperties` of `ply.ts`. -/
def parseAsciiVertexProperties (values : List JSNum) (properties : List String) :
    Result (Vec3 × Option Vec3 × Option Vec2) ParseError :=
  match asciiVertexLoop values properties 0 ⟨none, none, none⟩ with
  | .err e => .err e
  | .ok st =>
    match st.position with
    | none => .err ⟨"Missing vertex position data", -1⟩
    | some p => .ok (p, st.normal, st.texCoord)

/-- Vertex-line loop of `parseAsciiBody` of `ply.ts` (the line index is
post-incremented before an end-of-file error is reported). -/
def readVertexLines (lines : List String) (props : List String) :
    Nat → Nat → List Vertex → Result (List Vertex × Nat) ParseError
  | 0, li, acc => .ok (acc, li)
  | k + 1, li, acc =>
    let lineOpt := (lines.get? li).map jsTrim
    let li2 := li + 1
    match lineOpt with
    | none => .err ⟨"Unexpected end of file in vertex list", (li2 : ℤ)⟩
    | some l =>
      if l = "" then .err ⟨"Unexpected end of file in vertex list", (li2 : ℤ)⟩
      else
        let parts := (jsSplitWs l).map jsParseFloat
        match parseAsciiVertexProperties parts props with
        | .err e => .err e
        | .ok (p, nrm, tc) => readVertexLines lines props k li2 (acc ++ [createVertex p nrm tc])

/-- Face-line loop of `parseAsciiBody` of `ply.ts`: a list-count followed by
that many indices, each coerced with `| 0`. -/
def readFaceLines (lines : List String) :
    Nat → Nat → List Face → Result (List Face × Nat) ParseError
  | 0, li, acc => .ok (acc, li)
  | k + 1, li, acc =>
    let lineOpt := (lines.get? li).map jsTrim
    let li2 := li + 1
    match lineOpt with
    | none => .err ⟨"Unexpected end of file in face list", (li2 : ℤ)⟩
    | some l =>
      if l = "" then .err ⟨"Unexpected end of file in face list", (li2 : ℤ)⟩
      else
        let parts := (jsSplitWs l).map jsParseFloat
        let vertexCount := parts.headD .nan
        if vertexCount = .nan || JSNum.lt vertexCount (jn 3) then
          .err ⟨"Invalid face vertex count", (li2 : ℤ)⟩
        else
          let indices := (jsSlice parts (jn 1) ((jn 1).add vertexCount)).map
            (fun x => jn x.toInt32)
          readFaceLines lines k li2 (acc ++ [createFace indices none])

/-- `parseAsciiBody` of `ply.ts`. -/
def parseAsciiBody (lines : List String) (header : PLYHeader) (startIndex : Nat) :
    Result (List Vertex × List Face) ParseError :=
  match recGet header.elements "vertex" with
  | none => .err ⟨"Missing vertex element", (startIndex : ℤ)⟩
  | some vertexElem =>
    match readVertexLines lines vertexElem.properties vertexElem.count.loopCount startIndex [] with
    | .err e => .err e
    | .ok (vertices, li) =>
      match recGet header.elements "face" with
      | some faceElem =>
        match readFaceLines lines faceElem.count.loopCount li [] with
        | .err e => .err e
        | .ok (faces, _) => .ok (vertices, faces)
      | none => .ok (vertices, [])

/-- `calculateBoundingBox` of `ply.ts` (six running accumulators seeded with
the infinities). -/
def calcBBoxGo : List Vertex → JSNum → JSNum → JSNum → JSNum → JSNum → JSNum → BBox
  | [], mnx, mny, mnz, mxx, mxy, mxz => ⟨createVec3 mnx mny mnz, createVec3 mxx mxy mxz⟩
  | v :: vs, mnx, mny, mnz, mxx, mxy, mxz =>
    calcBBoxGo vs (mnx.min2 v.position.x) (mny.min2 v.position.y) (mnz.min2 v.position.z)
      (mxx.max2 v.position.x) (mxy.max2 v.position.y) (mxz.max2 v.position.z)

/-- `calculateBoundingBox` of `ply.ts`. -/
def calculateBoundingBox (vertices : List Vertex) : Option BBox :=
  if vertices.length = 0 then none
  else some (calcBBoxGo vertices .inf .inf .inf .ninf .ninf .ninf)

/-- `parseASCII` of `ply.ts` (the non-ascii-format branch only emits a
console warning in the source and then proceeds identically). -/
def parseASCII (content : String) : Result Scene ParseError :=
  let lines := jsSplitCrNl content
  if lines.length = 0 then .err ⟨"Empty PLY file", 0⟩
  else
    match parseHeader lines with
    | .err e => .err e
    | .ok (header, dataStartIndex) =>
      match parseAsciiBody lines header dataStartIndex with
      | .err e => .err e
      | .ok (vertices, faces) =>
        let mesh := createMesh "default" vertices faces none
        let boundingBox := calculateBoundingBox vertices
        .ok (createScene [mesh] [] ⟨"PLY", jn vertices.length, jn faces.length, boundingBox⟩)

/-- `readFloat32` of `ply.ts`: bounds-checked 4-byte float read. -/
def readFloat32 (buf : Bytes) (le : Bool) (off : Nat) : Result (JSNum × Nat) ParseError :=
  if buf.length < off + 4 then .err ⟨"Unexpected end of file in binary data", -1⟩
  else .ok (getFloat32 buf off le, off + 4)

/-- `readUint8` of `ply.ts`: bounds-checked 1-byte unsigned read. -/
def readUint8 (buf : Bytes) (off : Nat) : Result (JSNum × Nat) ParseError :=
  if buf.length < off + 1 then .err ⟨"Unexpected end of file in binary data", -1⟩
  else .ok (jn (byteAt buf off), off + 1)

/-- `readInt32` of `ply.ts`: bounds-checked 4-byte signed read. -/
def readInt32 (buf : Bytes) (le : Bool) (off : Nat) : Result (JSNum × Nat) ParseError :=
  if buf.length < off + 4 then .err ⟨"Unexpected end of file in binary data", -1⟩
  else .ok (jn (toSigned (wordAt buf off 4 le) 32), off + 4)

/-- Property loop for one binary vertex of `ply.ts`: `x`/`y`/`z` update the
position, every other declared property is read as a float32 and discarded
(this parser variant assumes 4-byte properties throughout). -/
def readVertexProps (buf : Bytes) (le : Bool) : List String → Nat → Option Vec3 →
    Result (Option Vec3 × Nat) ParseError
  | [], off, pos => .ok (pos, off)
  | prop :: rest, off, pos =>
    match readFloat32 buf le off with
    | .err e => .err e
    | .ok (value, off2) =>
      let pos2 :=
        if prop = "x" then
          some (createVec3 value (orZero (pos.map (fun p => p.y))) (orZero (pos.map (fun p => p.z))))
        else if prop = "y" then
          some (createVec3 (orZero (pos.map (fun p => p.x))) value (orZero (pos.map (fun p => p.z))))
        else if prop = "z" then
          some (createVec3 (orZero (pos.map (fun p => p.x))) (orZero (pos.map (fun p => p.y))) value)
        else pos
      readVertexProps buf le rest off2 pos2

/-- Vertex loop of `parseBinaryBodyFromArrayBuffer` of `ply.ts`. -/
def readVertices (buf : Bytes) (le : Bool) (props : List String) :
    Nat → Nat → List Vertex → Result (List Vertex × Nat) ParseError
  | 0, off, acc => .ok (acc, off)
  | k + 1, off, acc =>
    match readVertexProps buf le props off none with
    | .err e => .err e
    | .ok (pos, off2) =>
      match pos with
      | none => .err ⟨"Missing vertex position data", -1⟩
      | some p => readVertices buf le props k off2 (acc ++ [createVertex p none none])

/-- Index loop of the face list read of `ply.ts`. -/
def readIndices (buf : Bytes) (le : Bool) : Nat → Nat → List JSNum →
    Result (List JSNum × Nat) ParseError
  | 0, off, acc => .ok (acc, off)
  | j + 1, off, acc =>
    match readInt32 buf le off with
    | .err e => .err e
    | .ok (v, off2) => readIndices buf le j off2 (acc ++ [v])

/-- Property loop for one binary face of `ply.ts`: the `vertex_indices` /
`vertex_index` list property is a uint8 count followed by that many int32
indices; color properties are single skipped bytes; anything else is
ignored. -/
def readFaceProps (buf : Bytes) (le : Bool) : List String → Nat → List JSNum →
    Result (List JSNum × Nat) ParseError
  | [], off, indices => .ok (indices, off)
  | prop :: rest, off, indices =>
    if prop = "vertex_indices" || prop = "vertex_index" then
      match readUint8 buf off with
      | .err e => .err e
      | .ok (cnt, off2) =>
        match readIndices buf le cnt.loopCount off2 [] with
        | .err e => .err e
        | .ok (vs, off3) => readFaceProps buf le rest off3 (indices ++ vs)
    else if prop = "red" || prop = "green" || prop = "blue" || prop = "alpha" then
      match readUint8 buf off with
      | .err e => .err e
      | .ok (_, off2) => readFaceProps buf le rest off2 indices
    else readFaceProps buf le rest off indices

/-- Face loop of `parseBinaryBodyFromArrayBuffer` of `ply.ts` (faces with no
indices are not pushed). -/
def readFaces (buf : Bytes) (le : Bool) (props : List String) :
    Nat → Nat → List Face → Result (List Face × Nat) ParseError
  | 0, off, acc => .ok (acc, off)
  | k + 1, off, acc =>
    match readFaceProps buf le props off [] with
    | .err e => .err e
    | .ok (indices, off2) =>
      let acc2 := if 0 < indices.length then acc ++ [createFace indices none] else acc
      readFaces buf le props k off2 acc2

/-- `parseBinaryBodyFromArrayBuffer` of `ply.ts`. -/
def parseBinaryBodyFromArrayBuffer (buffer : Bytes) (header : PLYHeader) :
    Result (List Vertex × List Face) ParseError :=
  match recGet header.elements "vertex" with
  | none => .err ⟨"Missing vertex element", -1⟩
  | some vertexElem =>
    let littleEndian := header.format == "binary_little_endian"
    match readVertices buffer littleEndian vertexElem.properties vertexElem.count.loopCount 0 [] with
    | .err e => .err e
    | .ok (vertices, off) =>
      match recGet header.elements "face" with
      | some faceElem =>
        match readFaces buffer littleEndian faceElem.properties faceElem.count.loopCount off [] with
        | .err e => .err e
        | .ok (faces, _) => .ok (vertices, faces)
      | none => .ok (vertices, [])

/-- `parseBinaryFromArrayBuffer` of `ply.ts`: decode the first ~1KB as text,
parse the header from it, then decode the binary payload found right after
the `end_header` token (skipping one CRLF/LF). -/
def parseBinaryFromArrayBuffer (buffer : Bytes) : Result Scene ParseError :=
  let headerText := asciiDecode (buffer.take (min 1024 buffer.length))
  let headerLines := jsSplitChar '\n' headerText
  match parseHeader headerLines with
  | .err e => .err e
  | .ok (header, _) =>
    match strIndexOf headerText "end_header" with
    | none => .err ⟨"Could not find end_header", -1⟩
    | some endHeaderIndex =>
      let bs0 := endHeaderIndex + 10
      let cs := headerText.data
      let bs1 := if cs.get? bs0 = some '\r' then bs0 + 1 else bs0
      let bs2 := if cs.get? bs1 = some '\n' then bs1 + 1 else bs1
      let binaryData := buffer.drop bs2
      match parseBinaryBodyFromArrayBuffer binaryData header with
      | .err e => .err e
      | .ok (vertices, faces) =>
        let mesh := createMesh "default" vertices faces none
        let boundingBox := calculateBoundingBox vertices
        .ok (createScene [mesh] [] ⟨"PLY", jn vertices.length, jn faces.length, boundingBox⟩)

/-- The string branch of `parsePLY` of `ply.ts` (its `try` wrapper is inert
here: the embedded body is total, and the source catch handler itself would
crash, referencing `ParseError` as a constructor). -/
def parsePLYString (content : String) : Result Scene ParseError := parseASCII content

/-- The buffer branch of `parsePLY` of `ply.ts`: binary when the first ~1KB
mentions `format binary_`, otherwise the whole buffer is decoded as text and
parsed as ASCII. -/
def parsePLYBuffer (content : Bytes) : Result Scene ParseError :=
  let headerText := asciiDecode (content.take (min 1024 content.length))
  if strIncludes headerText "format binary_" then parseBinaryFromArrayBuffer content
  else parseASCII (asciiDecode content)

end PLY

/-- The ASCII PLY text of the cross-format equivalence claim. -/
def plyAsciiInput : String :=
  "ply\nformat ascii 1.0\nelement vertex 3\nproperty float x\nproperty float y\nproperty float z\nelement face 1\nproperty list uchar int vertex_indices\nend_header\n0 0 0\n1 0 0\n0 1 0\n3 0 1 2\n"

/-- The binary_little_endian PLY encoding of the same header-declared
properties and values (three float32 vertices, then a uchar list count and
three int32 indices). -/
def plyBinaryInput : Bytes :=
  ("ply\nformat binary_little_endian 1.0\nelement vertex 3\nproperty float x\nproperty float y\nproperty float z\nelement face 1\nproperty list uchar int vertex_indices\nend_header\n".data.map Char.toNat) ++
    ([0, 0, 0, 0, 0, 0, 0, 0, 0, 0, 0, 0,
      0, 0, 128, 63, 0, 0, 0, 0, 0, 0, 0, 0,
      0, 0, 0, 0, 0, 0, 128, 63, 0, 0, 0, 0,
      3, 0, 0, 0, 0, 1, 0, 0, 0, 2, 0, 0, 0] : List Nat)

/-! ## Typed-property PLY parser variant (the second `parsePLY` source of the
repository, provided as an unnamed file; it records property types in the
header and drives the binary cursor by them) -/

namespace PLY2

/-- `PLYProperty` of the typed PLY parser variant. -/
structure PLYProperty : Type where
  name : String
  type : String
  isList : Bool
  listType : Option String
deriving DecidableEq

/-- `PLYElement` of the typed PLY parser variant. -/
structure PLYElement : Type where
  name : String
  count : JSNum
  properties : List PLYProperty
deriving DecidableEq

/-- `PLYHeader` of the typed PLY parser variant. -/
structure PLYHeader : Type where
  format : String
  version : String
  elements : List (String × PLYElement)
deriving DecidableEq

/-- Assignment into the `elements` record. -/
def recSet (m : List (String × PLYElement)) (k : String) (v : PLYElement) :
    List (String × PLYElement) :=
  match m with
  | [] => [(k, v)]
  | (k2, v2) :: rest => if k2 == k then (k, v) :: rest else (k2, v2) :: recSet rest k v

/-- Lookup in the `elements` record. -/
def recGet (m : List (String × PLYElement)) (k : String) : Option PLYElement :=
  (m.find? (fun p => p.1 == k)).map (fun p => p.2)

/-- `parseFormat` of the typed variant (same line grammar as `ply.ts`). -/
def parseFormat (line : String) (lineNumber : ℤ) : Result (String × String) PLY.ParseError :=
  PLY.parseFormat line lineNumber

/-- `parseElement` of the typed variant. -/
def parseElement (line : String) (lineNumber : ℤ) : Result PLYElement PLY.ParseError :=
  let parts := jsSplitWs line
  if parts.length < 3 then .err ⟨"Invalid element line", lineNumber⟩
  else
    let name := parts.getD 1 ""
    let count := jsParseInt (parts.getD 2 "")
    if count = .nan then .err ⟨"Invalid element count", lineNumber⟩
    else .ok ⟨name, count, []⟩

/-- `parseProperty` of the typed variant: `property <type> <name>` or
`property list <countType> <type> <name>`. -/
def parseProperty (line : String) (lineNumber : ℤ) : Result PLYProperty PLY.ParseError :=
  let parts := jsSplitWs line
  if parts.length < 3 then .err ⟨"Invalid property line", lineNumber⟩
  else if parts.getD 1 "" = "list" then
    if parts.length < 5 then .err ⟨"Invalid list property line", lineNumber⟩
    else .ok ⟨parts.getD 4 "", parts.getD 3 "", true, some (parts.getD 2 "")⟩
  else .ok ⟨parts.getD 2 "", parts.getD 1 "", false, none⟩

/-- State threaded through `processHeaderLine` of the typed variant. -/
structure HeaderState : Type where
  format : String
  version : String
  elements : List (String × PLYElement)
  currentElement : Option PLYElement
deriving DecidableEq

/-- `processHeaderLine` of the typed variant. -/
def processHeaderLine (st : Result HeaderState PLY.ParseError) (line : String)
    (lineNumber : ℤ) : Result HeaderState PLY.ParseError :=
  match st with
  | .err e => .err e
  | .ok s =>
    let trimmed := jsTrim line
    if trimmed = "end_header" then .ok s
    else if trimmed = "" || strStartsWith trimmed "comment" then .ok s
    else if strStartsWith trimmed "format" then
      (parseFormat trimmed lineNumber).map (fun fv =>
        { s with format := fv.1, version := fv.2 })
    else if strStartsWith trimmed "element" then
      (parseElement trimmed lineNumber).map (fun el =>
        { s with elements := recSet s.elements el.name el, currentElement := some el })
    else if strStartsWith trimmed "property" then
      match s.currentElement with
      | none => .err ⟨"Property without element", lineNumber⟩
      | some c =>
        (parseProperty trimmed lineNumber).map (fun p =>
          let upd : PLYElement := { c with properties := c.properties ++ [p] }
          { s with elements := recSet s.elements upd.name upd, currentElement := some upd })
    else .ok s

/-- `parseHeader` of the typed variant: checks the `ply` magic, then looks for
the `end_header` line up front — its absence is reported, with the total line
count, before any other header line is examined. -/
def parseHeader (lines : List String) : Result (PLYHeader × Nat) PLY.ParseError :=
  if jsTrim (lines.headD "") ≠ "ply" then
    .err ⟨"Missing " ++ apos ++ "ply" ++ apos ++ " header", 1⟩
  else
    match lines.findIdx? (fun l => jsTrim l == "end_header") with
    | none => .err ⟨"Missing end_header", (lines.length : ℤ)⟩
    | some endHeaderIndex =>
      let headerLines := (lines.take endHeaderIndex).drop 1
      let init : Result HeaderState PLY.ParseError := .ok ⟨"ascii", "1.0", [], none⟩
      let fin := headerLines.enum.foldl
        (fun st (p : Nat × String) => processHeaderLine st p.2 ((p.1 : ℤ) + 2)) init
      fin.map (fun s => (PLYHeader.mk s.format s.version s.elements, endHeaderIndex + 1))

/-- `VertexData` of the typed variant: the position starts zero-filled, the
optional attributes start absent. -/
structure VertexData : Type where
  position : Vec3
  normal : Option Vec3
  texCoord : Option Vec2
deriving DecidableEq

/-- Field update shared by the ASCII and binary vertex readers of the typed
variant: position/normal/texcoord components by property name, anything else
ignored. -/
def vertexFieldUpd (data : VertexData) (pname : String) (value : JSNum) : VertexData :=
  if pname = "x" then { data with position := createVec3 value data.position.y data.position.z }
  else if pname = "y" then { data with position := createVec3 data.position.x value data.position.z }
  else if pname = "z" then { data with position := createVec3 data.position.x data.position.y value }
  else if pname = "nx" then
    { data with normal := some (match data.normal with
        | some nv => createVec3 value nv.y nv.z
        | none => createVec3 value (jn 0) (jn 0)) }
  else if pname = "ny" then
    { data with normal := some (match data.normal with
        | some nv => createVec3 nv.x value nv.z
        | none => createVec3 (jn 0) value (jn 0)) }
  else if pname = "nz" then
    { data with normal := some (match data.normal with
        | some nv => createVec3 nv.x nv.y value
        | none => createVec3 (jn 0) (jn 0) value) }
  else if pname = "s" || pname = "u" || pname = "texture_u" then
    { data with texCoord := some (match data.texCoord with
        | some t => createVec2 value t.y
        | none => createVec2 value (jn 0)) }
  else if pname = "t" || pname = "v" || pname = "texture_v" then
    { data with texCoord := some (match data.texCoord with
        | some t => createVec2 t.x value
        | none => createVec2 (jn 0) value) }
  else data

/-- `parseAsciiVertexProperties` of the typed variant: fold over the
property/value pairs (`zipArray` truncates), NaN values are errors, and a
vertex whose position remained exactly `(0,0,0)` is reported as missing
position data (a quirk of this variant, faithfully kept). -/
def parseAsciiVertexProperties (values : List JSNum) (properties : List PLYProperty) :
    Result VertexData PLY.ParseError :=
  let pairs := zipArray properties values
  let fin : Result VertexData PLY.ParseError := pairs.foldl
    (fun acc pv =>
      match acc with
      | .err e => .err e
      | .ok data =>
        if pv.2 = .nan then .err ⟨"Invalid vertex property value for " ++ pv.1.name, -1⟩
        else .ok (vertexFieldUpd data pv.1.name pv.2))
    (Result.ok ⟨createVec3 (jn 0) (jn 0) (jn 0), none, none⟩)
  match fin with
  | .err e => .err e
  | .ok data =>
    if data.position.x.strictEq (jn 0) && data.position.y.strictEq (jn 0) &&
        data.position.z.strictEq (jn 0) then
      .err ⟨"Missing vertex position data", -1⟩
    else .ok data

/-- `parseAsciiVertexLine` of the typed variant. -/
def parseAsciiVertexLine (properties : List PLYProperty) (line : String) :
    Result Vertex PLY.ParseError :=
  (parseAsciiVertexProperties ((jsSplitWs (jsTrim line)).map jsParseFloat) properties).map
    (fun d => createVertex d.position d.normal d.texCoord)

/-- `parseAsciiFaceLine` of the typed variant. -/
def parseAsciiFaceLine (line : String) : Result Face PLY.ParseError :=
  let parts := (jsSplitWs (jsTrim line)).map jsParseFloat
  let vertexCount := parts.headD .nan
  if vertexCount = .nan || JSNum.lt vertexCount (jn 3) then
    .err ⟨"Invalid face vertex count", -1⟩
  else
    let indices := (jsSlice parts (jn 1) ((jn 1).add vertexCount)).map (fun x => jn x.toInt32)
    .ok (createFace indices none)

/-- `parseAsciiBody` of the typed variant. -/
def parseAsciiBody (lines : List String) (header : PLYHeader) (startIndex : Nat) :
    Result (List Vertex × List Face) PLY.ParseError :=
  match recGet header.elements "vertex" with
  | none => .err ⟨"Missing vertex element", (startIndex : ℤ)⟩
  | some vertexElem =>
    let bodyLines := lines.drop startIndex
    let vertexLines := takeArray vertexElem.count bodyLines
    match Result.traverseList (parseAsciiVertexLine vertexElem.properties) vertexLines with
    | .err e => .err e
    | .ok vertices =>
      match recGet header.elements "face" with
      | some faceElem =>
        let faceLines := takeArray faceElem.count (dropArray vertexElem.count bodyLines)
        match Result.traverseList parseAsciiFaceLine faceLines with
        | .err e => .err e
        | .ok faces => .ok (vertices, faces)
      | none => .ok (vertices, [])

/-- Byte widths of the scalar types, as in the `skip` table of
`createBinaryReader`. -/
def typeSize (ty : String) : Option Nat :=
  if ty = "char" then some 1 else if ty = "uchar" then some 1
  else if ty = "short" then some 2 else if ty = "ushort" then some 2
  else if ty = "int" then some 4 else if ty = "uint" then some 4
  else if ty = "float" then some 4 else if ty = "double" then some 8
  else none

/-- `read` of `createBinaryReader`: one scalar of the header-declared type at
the cursor, bounds-checked, advancing by the type's fixed width. -/
def readScalar (buf : Bytes) (le : Bool) (ty : String) (off : Nat) :
    Result (JSNum × Nat) PLY.ParseError :=
  if ty = "char" then
    if buf.length < off + 1 then .err ⟨"Unexpected EOF", -1⟩
    else .ok (jn (toSigned (byteAt buf off) 8), off + 1)
  else if ty = "uchar" then
    if buf.length < off + 1 then .err ⟨"Unexpected EOF", -1⟩
    else .ok (jn (byteAt buf off), off + 1)
  else if ty = "short" then
    if buf.length < off + 2 then .err ⟨"Unexpected EOF", -1⟩
    else .ok (jn (toSigned (wordAt buf off 2 le) 16), off + 2)
  else if ty = "ushort" then
    if buf.length < off + 2 then .err ⟨"Unexpected EOF", -1⟩
    else .ok (jn (wordAt buf off 2 le), off + 2)
  else if ty = "int" then
    if buf.length < off + 4 then .err ⟨"Unexpected EOF", -1⟩
    else .ok (jn (toSigned (wordAt buf off 4 le) 32), off + 4)
  else if ty = "uint" then
    if buf.length < off + 4 then .err ⟨"Unexpected EOF", -1⟩
    else .ok (jn (wordAt buf off 4 le), off + 4)
  else if ty = "float" then
    if buf.length < off + 4 then .err ⟨"Unexpected EOF", -1⟩
    else .ok (getFloat32 buf off le, off + 4)
  else if ty = "double" then
    if buf.length < off + 8 then .err ⟨"Unexpected EOF", -1⟩
    else .ok (getFloat64 buf off le, off + 8)
  else .err ⟨"Unsupported data type: " ++ ty, -1⟩

/-- `skip` of `createBinaryReader`: advance the cursor by the type's width
without producing a value. -/
def skipScalar (buf : Bytes) (ty : String) (off : Nat) : Result Nat PLY.ParseError :=
  match typeSize ty with
  | none => .err ⟨"Unknown type size: " ++ ty, -1⟩
  | some size =>
    if buf.length < off + size then .err ⟨"Unexpected EOF while skipping", -1⟩
    else .ok (off + size)

/-- Property fold of `parseBinaryVertex` of the typed variant: read each
property with its declared type, in header order, updating the vertex fields
by property name. -/
def parseBinaryVertexGo (buf : Bytes) (le : Bool) : List PLYProperty → Nat → VertexData →
    Result (VertexData × Nat) PLY.ParseError
  | [], off, data => .ok (data, off)
  | p :: rest, off, data =>
    match readScalar buf le p.type off with
    | .err e => .err e
    | .ok (value, off2) => parseBinaryVertexGo buf le rest off2 (vertexFieldUpd data p.name value)

/-- `parseBinaryVertex` of the typed variant (the final position check is on
an always-truthy object in the source, hence always passes). -/
def parseBinaryVertex (buf : Bytes) (le : Bool) (properties : List PLYProperty) (off : Nat) :
    Result (Vertex × Nat) PLY.ParseError :=
  match parseBinaryVertexGo buf le properties off ⟨createVec3 (jn 0) (jn 0) (jn 0), none, none⟩ with
  | .err e => .err e
  | .ok (data, off2) => .ok (createVertex data.position data.normal data.texCoord, off2)

/-- Sequential scalar reads, as produced by `all` over `Array.from` of
reader calls. -/
def readScalarN (buf : Bytes) (le : Bool) (ty : String) : Nat → Nat →
    Result (List JSNum × Nat) PLY.ParseError
  | 0, off => .ok ([], off)
  | k + 1, off =>
    match readScalar buf le ty off with
    | .err e => .err e
    | .ok (v, off2) =>
      match readScalarN buf le ty k off2 with
      | .err e => .err e
      | .ok (vs, off3) => .ok (v :: vs, off3)

/-- Property fold of `parseBinaryFace` of the typed variant: the
`vertex_indices`/`vertex_index` list property reads its count with the
declared count type then that many indices with the declared index type;
every other property is skipped by its declared width. -/
def parseBinaryFaceGo (buf : Bytes) (le : Bool) : List PLYProperty → Nat → List JSNum →
    Result (List JSNum × Nat) PLY.ParseError
  | [], off, indices => .ok (indices, off)
  | p :: rest, off, indices =>
    if p.isList && (p.name == "vertex_indices" || p.name == "vertex_index") then
      match readScalar buf le (p.listType.getD "undefined") off with
      | .err e => .err e
      | .ok (cnt, off2) =>
        match readScalarN buf le p.type cnt.toLengthNat off2 with
        | .err e => .err e
        | .ok (vs, off3) => parseBinaryFaceGo buf le rest off3 (indices ++ vs)
    else
      match skipScalar buf p.type off with
      | .err e => .err e
      | .ok off2 => parseBinaryFaceGo buf le rest off2 indices

/-- `parseBinaryFace` of the typed variant. -/
def parseBinaryFace (buf : Bytes) (le : Bool) (properties : List PLYProperty) (off : Nat) :
    Result (Face × Nat) PLY.ParseError :=
  match parseBinaryFaceGo buf le properties off [] with
  | .err e => .err e
  | .ok (indices, off2) => .ok (createFace indices none, off2)

/-- Vertex sequence of `parseBinaryBodyFromArrayBuffer` of the typed
variant. -/
def readVertexSeq (buf : Bytes) (le : Bool) (props : List PLYProperty) :
    Nat → Nat → Result (List Vertex × Nat) PLY.ParseError
  | 0, off => .ok ([], off)
  | k + 1, off =>
    match parseBinaryVertex buf le props off with
    | .err e => .err e
    | .ok (v, off2) =>
      match readVertexSeq buf le props k off2 with
      | .err e => .err e
      | .ok (vs, off3) => .ok (v :: vs, off3)

/-- Face sequence of `parseBinaryBodyFromArrayBuffer` of the typed variant. -/
def readFaceSeq (buf : Bytes) (le : Bool) (props : List PLYProperty) :
    Nat → Nat → Result (List Face × Nat) PLY.ParseError
  | 0, off => .ok ([], off)
  | k + 1, off =>
    match parseBinaryFace buf le props off with
    | .err e => .err e
    | .ok (f, off2) =>
      match readFaceSeq buf le props k off2 with
      | .err e => .err e
      | .ok (fs, off3) => .ok (f :: fs, off3)

/-- `parseBinaryBodyFromArrayBuffer` of the typed variant. -/
def parseBinaryBodyFromArrayBuffer (buffer : Bytes) (header : PLYHeader) :
    Result (List Vertex × List Face) PLY.ParseError :=
  match recGet header.elements "vertex" with
  | none => .err ⟨"Missing vertex element", -1⟩
  | some vertexElem =>
    let littleEndian := header.format == "binary_little_endian"
    match readVertexSeq buffer littleEndian vertexElem.properties
        vertexElem.count.toLengthNat 0 with
    | .err e => .err e
    | .ok (vertices, off) =>
      match recGet header.elements "face" with
      | some faceElem =>
        match readFaceSeq buffer littleEndian faceElem.properties
            faceElem.count.toLengthNat off with
        | .err e => .err e
        | .ok (faces, _) => .ok (vertices, faces)
      | none => .ok (vertices, [])

/-- `calculateBoundingBox` of the typed variant (reduce seeded with the
infinities). -/
def calculateBoundingBox (vertices : List Vertex) : Option BBox :=
  if vertices.length = 0 then none
  else some (vertices.foldl
    (fun acc v =>
      ⟨createVec3 (acc.min.x.min2 v.position.x) (acc.min.y.min2 v.position.y)
          (acc.min.z.min2 v.position.z),
        createVec3 (acc.max.x.max2 v.position.x) (acc.max.y.max2 v.position.y)
          (acc.max.z.max2 v.position.z)⟩)
    ⟨createVec3 .inf .inf .inf, createVec3 .ninf .ninf .ninf⟩)

/-- `createSceneFromMeshData` of the typed variant. -/
def createSceneFromMeshData (vertices : List Vertex) (faces : List Face) : Scene :=
  createScene [createMesh "default" vertices faces none] []
    ⟨"PLY", jn vertices.length, jn faces.length, calculateBoundingBox vertices⟩

/-- `parseBinaryFromArrayBuffer` of the typed variant. -/
def parseBinaryFromArrayBuffer (buffer : Bytes) : Result Scene PLY.ParseError :=
  let headerText := asciiDecode (buffer.take (min 1024 buffer.length))
  let headerLines := jsSplitChar '\n' headerText
  match parseHeader headerLines with
  | .err e => .err e
  | .ok (header, _) =>
    match strIndexOf headerText "end_header" with
    | none => .err ⟨"Could not find end_header", -1⟩
    | some endHeaderIndex =>
      let bs0 := endHeaderIndex + 10
      let cs := headerText.data
      let bs1 := if cs.get? bs0 = some '\r' then bs0 + 1 else bs0
      let bs2 := if cs.get? bs1 = some '\n' then bs1 + 1 else bs1
      (parseBinaryBodyFromArrayBuffer (buffer.drop bs2) header).map
        (fun vf => createSceneFromMeshData vf.1 vf.2)

/-- `parseASCII` of the typed variant. -/
def parseASCII (content : String) : Result Scene PLY.ParseError :=
  let lines := jsSplitCrNl content
  if lines.length = 0 then .err ⟨"Empty PLY file", 0⟩
  else
    match parseHeader lines with
    | .err e => .err e
    | .ok (header, dataStartIndex) =>
      (parseAsciiBody lines header dataStartIndex).map
        (fun vf => createSceneFromMeshData vf.1 vf.2)

/-- The string branch of the typed variant's `parsePLY`. -/
def parsePLYString (content : String) : Result Scene PLY.ParseError := parseASCII content

/-- `safeArrayBufferDetection` of the typed variant (text decoding cannot
fail in the model, so the `try` wrapper of `safeTextDecoder.decode` is
inert). -/
def parsePLYBuffer (content : Bytes) : Result Scene PLY.ParseError :=
  let headerText := asciiDecode (content.take (min 1024 content.length))
  if strIncludes headerText "format binary_" then parseBinaryFromArrayBuffer content
  else parseASCII (asciiDecode content)

end PLY2

/-! ## glTF parser (`shared/parsers/gltf.ts`).  The `JSON.parse` step is
abstracted: the embedding takes the decoded JSON document as a `Json` value,
and the claims quantify over those documents. -/

/-- Decoded JSON values. -/
inductive Json : Type where
  | null
  | bool (b : Bool)
  | num (v : JSNum)
  | str (s : String)
  | arr (elements : List Json)
  | obj (fields : List (String × Json))

/-- JavaScript property access `j.k`: `undefined` (`none`) on non-objects
and missing keys. -/
def jsonGet : Json → String → Option Json
  | .obj fields, k => (fields.find? (fun p => p.1 == k)).map (fun p => p.2)
  | _, _ => none

/-- JavaScript truthiness of a JSON value. -/
def jsonTruthy : Json → Bool
  | .null => false
  | .bool b => b
  | .num v => v.truthy
  | .str s => decide (s ≠ "")
  | .arr _ => true
  | .obj _ => true

/-- Truthiness of a possibly-absent value (`undefined` is falsy). -/
def jsonTruthyOpt : Option Json → Bool
  | some j => jsonTruthy j
  | none => false

/-- Numeric reading of a JSON value where the source uses it as a number
(non-numbers behave as NaN; JavaScript string coercion is not modelled and
is not exercised by the claims). -/
def jsonNumOf : Json → JSNum
  | .num v => v
  | _ => .nan

/-- Numeric reading of a possibly-absent value. -/
def jsonNumOpt : Option Json → JSNum
  | some j => jsonNumOf j
  | none => .nan

/-- JavaScript `x || 0` on a possibly-absent JSON field used as a number. -/
def jsonOr0 (o : Option Json) : JSNum := orZero (some (jsonNumOpt o))

/-- String reading of a possibly-absent value. -/
def jsonStrOpt : Option Json → Option String
  | some (.str s) => some s
  | _ => none

/-- Display of a JSON value inside a template literal (only numbers are
exercised by the embedded error messages). -/
def jsonDisplay : Json → String
  | .num v => v.toStr
  | .str s => s
  | .null => "null"
  | .bool b => if b then "true" else "false"
  | .arr _ => ""
  | .obj _ => "[object Object]"

/-- Element of a possibly-absent JSON array read as a number
(`xs[i]` with `undefined` behaving as NaN). -/
def jsonElemNum (o : Option Json) (i : Nat) : JSNum :=
  match o with
  | some (.arr xs) => jsonNumOpt (xs.get? i)
  | _ => .nan

namespace GLTF

/-- `GLTFParseError` of `gltf.ts`. -/
structure GLTFParseError : Type where
  message : String
  path : Option String
deriving DecidableEq

/-- `parseJSON` of `gltf.ts`, after `JSON.parse`: require a truthy
`asset.version`. -/
def parseJSON (json : Json) : Result Json GLTFParseError :=
  match jsonGet json "asset" with
  | none => .err ⟨"Invalid GLTF: missing asset information", none⟩
  | some asset =>
    if !(jsonTruthy asset) then .err ⟨"Invalid GLTF: missing asset information", none⟩
    else if !(jsonTruthyOpt (jsonGet asset "version")) then
      .err ⟨"Invalid GLTF: missing asset information", none⟩
    else .ok json

/-- Value of one base64 alphabet character. -/
def base64Val (c : Char) : Option Nat :=
  if 'A' ≤ c ∧ c ≤ 'Z' then some (c.toNat - 65)
  else if 'a' ≤ c ∧ c ≤ 'z' then some (c.toNat - 97 + 26)
  else if '0' ≤ c ∧ c ≤ '9' then some (c.toNat - 48 + 52)
  else if c = '+' then some 62
  else if c = '/' then some 63
  else none

/-- Bytes of a list of 6-bit values (the length is never ≡ 1 mod 4 when this
is reached). -/
def b64Group : List Nat → Bytes
  | a :: b :: c :: d :: rest =>
    (a * 4 + b / 16) :: ((b % 16) * 16 + c / 4) :: ((c % 4) * 64 + d) :: b64Group rest
  | [a, b] => [a * 4 + b / 16]
  | [a, b, c] => [a * 4 + b / 16, (b % 16) * 16 + c / 4]
  | [_] => []
  | [] => []

/-- JavaScript `atob` (forgiving base64 decode: strip ASCII whitespace,
allow up to two trailing `=` when the length is a multiple of four, reject
other invalid input). -/
def atobDecode (s : String) : Option Bytes :=
  let cs := s.data.filter (fun c => !(jsIsWs c))
  let cs2 :=
    if cs.length % 4 = 0 then
      let r1 := cs.reverse
      let r2 := if r1.headD ' ' = '=' then r1.tail else r1
      let r3 := if r2.headD ' ' = '=' then r2.tail else r2
      r3.reverse
    else cs
  if cs2.length % 4 = 1 then none
  else
    let vals := cs2.map base64Val
    if vals.any (fun v => v.isNone) then none
    else some (b64Group (vals.map (fun v => v.getD 0)))

/-- `decodeDataURI` of `gltf.ts`: the non-greedy regex takes everything after
the first `;base64,` marker of a `data:` URI; a failed `atob` surfaces as the
catch branch (whose engine-specific message suffix is fixed here). -/
def decodeDataURI (uri : String) : Result Bytes GLTFParseError :=
  if !(strStartsWith uri "data:") then .err ⟨"Invalid data URI format", none⟩
  else
    match strIndexOf uri ";base64," with
    | none => .err ⟨"Invalid data URI format", none⟩
    | some i =>
      match atobDecode (String.mk (uri.data.drop (i + 8))) with
      | none => .err ⟨"Failed to decode data URI: InvalidCharacterError", none⟩
      | some bytes => .ok bytes

/-- `loadBuffer` of `gltf.ts` (a truthy non-string URI would throw in the
source; it is modelled as the external-URI error and not exercised). -/
def loadBuffer (buffer : Json) (index : Nat) : Result Bytes GLTFParseError :=
  let uriOpt := jsonGet buffer "uri"
  if !(jsonTruthyOpt uriOpt) then
    .err ⟨"Buffer " ++ toString index ++
            " has no URI (external buffers not supported in this implementation)", none⟩
  else
    match jsonStrOpt uriOpt with
    | some uri =>
      if strStartsWith uri "data:" then decodeDataURI uri
      else .err ⟨"External buffer URIs not supported: " ++ uri, none⟩
    | none => .err ⟨"External buffer URIs not supported: ", none⟩

/-- `loadBuffers` of `gltf.ts` (a truthy non-array `buffers` would throw in
the source; not exercised). -/
def loadBuffers (gltf : Json) : Result (List Bytes) GLTFParseError :=
  match jsonGet gltf "buffers" with
  | some (.arr bs) =>
    if bs.length = 0 then .ok []
    else Result.all (bs.enum.map (fun p => loadBuffer p.2 p.1))
  | _ => .ok []

/-- Typed-array view construction of `readAccessor`: alignment and bounds as
checked by the `Float32Array`/`Uint16Array`/`Uint32Array` constructors
(`none` models the caught RangeError), little-endian platform order. -/
def readTyped (buf : Bytes) (off : Nat) (code : Nat) (count : Nat) : Option (List JSNum) :=
  if code = 5126 then
    if off % 4 = 0 ∧ off + 4 * count ≤ buf.length then
      some ((List.range count).map (fun i => getFloat32 buf (off + 4 * i) true))
    else none
  else if code = 5123 then
    if off % 2 = 0 ∧ off + 2 * count ≤ buf.length then
      some ((List.range count).map (fun i => jn (wordAt buf (off + 2 * i) 2 true)))
    else none
  else if code = 5125 then
    if off % 4 = 0 ∧ off + 4 * count ≤ buf.length then
      some ((List.range count).map (fun i => jn (wordAt buf (off + 4 * i) 4 true)))
    else none
  else none

/-- `componentsPerElement` (the `TypeSize` table of `gltf.ts`). -/
def typeSizeGLTF (t : String) : Option Nat :=
  if t = "SCALAR" then some 1 else if t = "VEC2" then some 2
  else if t = "VEC3" then some 3 else if t = "VEC4" then some 4
  else if t = "MAT2" then some 4 else if t = "MAT3" then some 9
  else if t = "MAT4" then some 16 else none

/-- Index access `xs[j]` with a JSON index value. -/
def jsonIdxAccess (xs : List Json) (idx : Json) : Option Json :=
  match idx with
  | .num v => jsGetElem xs v
  | _ => none

/-- `readAccessor` of `gltf.ts`: resolve the accessor through its
bufferView/buffer chain, honor the summed byte offsets, and materialize a
typed view of `count * componentsPerElement(type)` elements; only FLOAT,
UNSIGNED_SHORT and UNSIGNED_INT component types are supported. -/
def readAccessor (gltf : Json) (buffers : List Bytes) (accessorIndex : JSNum) :
    Result (List JSNum) GLTFParseError :=
  let accOpt :=
    match jsonGet gltf "accessors" with
    | some (.arr xs) => jsGetElem xs accessorIndex
    | _ => none
  match accOpt with
  | none => .err ⟨"Accessor " ++ accessorIndex.toStr ++ " not found", none⟩
  | some accessor =>
    match jsonGet accessor "bufferView" with
    | none => .err ⟨"Accessor " ++ accessorIndex.toStr ++ " has no bufferView", none⟩
    | some bufferViewIdx =>
      let bvOpt :=
        match jsonGet gltf "bufferViews" with
        | some (.arr xs) => jsonIdxAccess xs bufferViewIdx
        | _ => none
      match bvOpt with
      | none => .err ⟨"BufferView " ++ jsonDisplay bufferViewIdx ++ " not found", none⟩
      | some bufferView =>
        let bufIdx := jsonGet bufferView "buffer"
        match (match bufIdx with
               | some j => jsGetElem buffers (jsonNumOf j)
               | none => none) with
        | none => .err ⟨"Buffer " ++ jsonDisplay ((jsonGet bufferView "buffer").getD .null) ++
                          " not found", none⟩
        | some buffer =>
          let byteOffset := (jsonOr0 (jsonGet bufferView "byteOffset")).add
            (jsonOr0 (jsonGet accessor "byteOffset"))
          let elemSizeNum : JSNum :=
            match typeSizeGLTF ((jsonStrOpt (jsonGet accessor "type")).getD "") with
            | some k => jn k
            | none => .nan
          let totalElements := (jsonNumOpt (jsonGet accessor "count")).mul elemSizeNum
          let ct := jsonNumOpt (jsonGet accessor "componentType")
          if ct == jn 5126 || ct == jn 5123 || ct == jn 5125 then
            let code : Nat := if ct == jn 5126 then 5126 else if ct == jn 5123 then 5123 else 5125
            let offNat : Option Nat :=
              match byteOffset with
              | .num q => if q.d = 1 ∧ 0 ≤ q.n then some q.n.toNat else none
              | _ => none
            match offNat with
            | none => .err ⟨"Failed to read accessor: RangeError", none⟩
            | some offN =>
              match readTyped buffer offN code totalElements.toLengthNat with
              | none => .err ⟨"Failed to read accessor: RangeError", none⟩
              | some vals => .ok vals
          else .err ⟨"Unsupported component type: " ++ ct.toStr, none⟩

/-- `toVec3Array` of `gltf.ts` (stride-3 grouping; components read past the
end of the data are `undefined`, modelled as NaN). -/
def toVec3Array : List JSNum → List Vec3
  | [] => []
  | x :: y :: z :: rest => createVec3 x y z :: toVec3Array rest
  | [x, y] => [createVec3 x y .nan]
  | [x] => [createVec3 x .nan .nan]

/-- `toVec2Array` of `gltf.ts`. -/
def toVec2Array : List JSNum → List Vec2
  | [] => []
  | x :: y :: rest => createVec2 x y :: toVec2Array rest
  | [x] => [createVec2 x .nan]

/-- `parseMaterial` of `gltf.ts`. -/
def parseMaterial (gltfMaterial : Json) : Material :=
  let pbr := jsonGet gltfMaterial "pbrMetallicRoughness"
  let baseColor := pbr.bind (fun p => jsonGet p "baseColorFactor")
  let name := match jsonStrOpt (jsonGet gltfMaterial "name") with
    | some s => if s ≠ "" then s else "default"
    | none => "default"
  let diffuse :=
    if jsonTruthyOpt baseColor then
      some (createVec3 (jsonElemNum baseColor 0) (jsonElemNum baseColor 1) (jsonElemNum baseColor 2))
    else none
  let emissive := jsonGet gltfMaterial "emissiveFactor"
  let ambient :=
    if jsonTruthyOpt emissive then
      some (createVec3 (jsonElemNum emissive 0) (jsonElemNum emissive 1) (jsonElemNum emissive 2))
    else none
  let shininess :=
    match pbr.bind (fun p => jsonGet p "roughnessFactor") with
    | some r => some (((jn 1).sub (jsonNumOf r)).mul (jn 128))
    | none => none
  ⟨name, ambient, diffuse, none, shininess, none⟩

/-- `parseMaterials` of `gltf.ts`. -/
def parseMaterials (gltf : Json) : List Material :=
  match jsonGet gltf "materials" with
  | some (.arr ms) => ms.map parseMaterial
  | _ => []

/-- `buildPrimitiveVertices` of `gltf.ts`: POSITION is required; NORMAL and
TEXCOORD_0 are optional, and a failed optional read is silently skipped. -/
def buildPrimitiveVertices (gltf : Json) (buffers : List Bytes) (primitive : Json) :
    Result (List Vertex) GLTFParseError :=
  let attributes := jsonGet primitive "attributes"
  match attributes.bind (fun a => jsonGet a "POSITION") with
  | none => .err ⟨"Primitive missing POSITION attribute", none⟩
  | some posIdx =>
    match readAccessor gltf buffers (jsonNumOf posIdx) with
    | .err e => .err e
    | .ok posVals =>
      let positions := toVec3Array posVals
      let normals : Option (List Vec3) :=
        match attributes.bind (fun a => jsonGet a "NORMAL") with
        | some ni =>
          match readAccessor gltf buffers (jsonNumOf ni) with
          | .ok vals => some (toVec3Array vals)
          | .err _ => none
        | none => none
      let texCoords : Option (List Vec2) :=
        match attributes.bind (fun a => jsonGet a "TEXCOORD_0") with
        | some ti =>
          match readAccessor gltf buffers (jsonNumOf ti) with
          | .ok vals => some (toVec2Array vals)
          | .err _ => none
        | none => none
      .ok (positions.enum.map (fun p =>
        createVertex p.2
          (match normals with | some ns => ns.get? p.1 | none => none)
          (match texCoords with
           | some ts => (ts.get? p.1).map (fun t => createVec2 t.x t.y)
           | none => none)))

/-- Triangle-list grouping of `buildPrimitiveFaces` (indices read past the
end are `undefined`, modelled as NaN). -/
def chunkTriples (mat : Option String) : List JSNum → List Face
  | [] => []
  | a :: b :: c :: rest => createFace [a, b, c] mat :: chunkTriples mat rest
  | [a, b] => [createFace [a, b, .nan] mat]
  | [a] => [createFace [a, .nan, .nan] mat]

/-- `buildPrimitiveFaces` of `gltf.ts`. -/
def buildPrimitiveFaces (gltf : Json) (buffers : List Bytes) (primitive : Json)
    (materialName : Option String) : Result (List Face) GLTFParseError :=
  match jsonGet primitive "indices" with
  | none => .ok []
  | some idxJ =>
    match readAccessor gltf buffers (jsonNumOf idxJ) with
    | .err e => .err e
    | .ok indices => .ok (chunkTriples materialName indices)

/-- `parseMesh` of `gltf.ts` (an absent `primitives` array would throw in
the source; not exercised). -/
def parseMesh (gltf : Json) (buffers : List Bytes) (gltfMesh : Json)
    (materials : List Material) : Result (List (List Vertex × List Face)) GLTFParseError :=
  match jsonGet gltfMesh "primitives" with
  | some (.arr prims) =>
    Result.all (prims.map (fun primitive =>
      match buildPrimitiveVertices gltf buffers primitive with
      | .err e => .err e
      | .ok vertices =>
        let material :=
          match jsonGet primitive "material" with
          | some mj => jsGetElem materials (jsonNumOf mj)
          | none => none
        match buildPrimitiveFaces gltf buffers primitive (material.map (fun m => m.name)) with
        | .err e => .err e
        | .ok faces => .ok (vertices, faces)))
  | _ => .ok []

/-- `calculateBoundingBox` of `gltf.ts` (identical to the one in `obj.ts`). -/
def calculateBoundingBox (vertices : List Vertex) : Option BBox :=
  OBJ.calculateBoundingBox vertices

/-- `buildScene` of `gltf.ts`: all primitives of a mesh flatten into one
canonical Mesh; all meshes compose the Scene. -/
def buildScene (gltf : Json) (buffers : List Bytes) : Result Scene GLTFParseError :=
  let materials := parseMaterials gltf
  match jsonGet gltf "meshes" with
  | some (.arr meshesJ) =>
    if meshesJ.length = 0 then .err ⟨"No meshes found in GLTF", none⟩
    else
      match Result.all (meshesJ.enum.map (fun p =>
        (parseMesh gltf buffers p.2 materials).map (fun primitives =>
          let allVertices := (primitives.map (fun q => q.1)).flatten
          let allFaces := (primitives.map (fun q => q.2)).flatten
          let nm := match jsonStrOpt (jsonGet p.2 "name") with
            | some s => if s ≠ "" then s else "mesh_" ++ toString p.1
            | none => "mesh_" ++ toString p.1
          createMesh nm allVertices allFaces none))) with
      | .err e => .err e
      | .ok meshes =>
        let allVertices := (meshes.map (fun m => m.vertices)).flatten
        let allFaces := (meshes.map (fun m => m.faces)).flatten
        .ok (createScene meshes materials
          ⟨"GLTF", jn allVertices.length, jn allFaces.length, calculateBoundingBox allVertices⟩)
  | _ => .err ⟨"No meshes found in GLTF", none⟩

/-- `parseGLTF` of `gltf.ts` on a decoded JSON document: check
`asset.version`, decode the buffers, build the scene — short-circuiting in
that order. -/
def parseGLTF (json : Json) : Result Scene GLTFParseError :=
  match parseJSON json with
  | .err e => .err e
  | .ok gltf =>
    match loadBuffers gltf with
    | .err e => .err e
    | .ok buffers => buildScene gltf buffers

end GLTF

/-- A glTF document with no `asset` entry but with a declared buffer whose
URI is malformed. -/
def gltfNoAsset : Json :=
  .obj [("buffers", .arr [.obj [("uri", .str "data:application/octet-stream;base64,!!!!")],
                          .obj [("uri", .str "nonsense")]]),
        ("meshes", .arr [])]

/-! ## Claim theorems -/

/-- Vertex with only a position, with small integer coordinates. -/
def pvert (x y z : ℤ) : Vertex := ⟨⟨jn x, jn y, jn z⟩, none, none⟩

/-- The OBJ text of the round-trip claim. -/
def objInput : String := "v 0 0 0\nv 1 0 0\nv 0 1 0\nf 1 2 3\n"

/-- The Scene produced by parsing `objInput`. -/
def objScene : Scene :=
  ⟨[⟨"default", [pvert 0 0 0, pvert 1 0 0, pvert 0 1 0],
      [⟨[jn 0, jn 1, jn 2], none⟩], none⟩], [],
    ⟨"OBJ", jn 3, jn 1, some ⟨⟨jn 0, jn 0, jn 0⟩, ⟨jn 1, jn 1, jn 0⟩⟩⟩⟩

/-- The OBJ text produced by re-encoding `objScene`. -/
def objRoundTripText : String :=
  "# Exported by freetheprogs toOBJ\n# format: OBJ -> OBJ\no default\nv 0 0 0\nv 1 0 0\nv 0 1 0\nf 1 2 3\n"

/-- The Scene produced by both PLY decodings of the equivalence claim. -/
def plyScene : Scene :=
  ⟨[⟨"default", [pvert 0 0 0, pvert 1 0 0, pvert 0 1 0],
      [⟨[jn 0, jn 1, jn 2], none⟩], none⟩], [],
    ⟨"PLY", jn 3, jn 1, some ⟨⟨jn 0, jn 0, jn 0⟩, ⟨jn 1, jn 1, jn 0⟩⟩⟩⟩

/-- An ASCII PLY whose single face references index 5 with only 3 declared
vertices. -/
def plyOobInput : String :=
  "ply\nformat ascii 1.0\nelement vertex 3\nproperty float x\nproperty float y\nproperty float z\nelement face 1\nproperty list uchar int vertex_indices\nend_header\n0 0 0\n1 0 0\n0 1 0\n3 0 1 5\n"

/-- The Scene `parsePLY` returns for `plyOobInput`. -/
def plyOobScene : Scene :=
  ⟨[⟨"default", [pvert 0 0 0, pvert 1 0 0, pvert 0 1 0],
      [⟨[jn 0, jn 1, jn 5], none⟩], none⟩], [],
    ⟨"PLY", jn 3, jn 1, some ⟨⟨jn 0, jn 0, jn 0⟩, ⟨jn 1, jn 1, jn 0⟩⟩⟩⟩

/-- Scene with no meshes. -/
def sEmptyScene : Scene := ⟨[], [], ⟨"X", jn 0, jn 0, none⟩⟩

/-- Scene whose single mesh has no vertices. -/
def sEmptyMesh : Scene := ⟨[⟨"m", [], [], none⟩], [], ⟨"X", jn 0, jn 0, none⟩⟩

/-- Scene with a non-finite vertex position component. -/
def sBadVert : Scene :=
  ⟨[⟨"m", [⟨⟨.nan, jn 0, jn 0⟩, none, none⟩], [], none⟩], [], ⟨"X", jn 1, jn 0, none⟩⟩

/-- Scene with a two-index face. -/
def sShortFace : Scene :=
  ⟨[⟨"m", [pvert 0 0 0, pvert 1 0 0, pvert 0 1 0], [⟨[jn 0, jn 1], none⟩], none⟩], [],
    ⟨"X", jn 3, jn 1, none⟩⟩

/-- Scene with an out-of-bounds face index. -/
def sOobFace : Scene :=
  ⟨[⟨"m", [pvert 0 0 0, pvert 1 0 0, pvert 0 1 0], [⟨[jn 0, jn 1, jn 5], none⟩], none⟩], [],
    ⟨"X", jn 3, jn 1, none⟩⟩

/-- Scene whose metadata vertex count disagrees with the actual total. -/
def sBadMeta : Scene :=
  ⟨[⟨"m", [pvert 0 0 0], [], none⟩], [], ⟨"X", jn 5, jn 0, none⟩⟩

/-- Scene violating both the mesh-nonempty invariant and the metadata
invariant (for the fail-fast conjunct). -/
def sMultiViolation : Scene := ⟨[⟨"m", [], [], none⟩], [], ⟨"X", jn 7, jn 7, none⟩⟩

def c4Header : PLY.PLYHeader :=
  ⟨"binary_little_endian", "1.0",
    [("vertex", ⟨"vertex", jn 1, ["x", "y", "z"]⟩)]⟩

def c4xHeader : PLY.PLYHeader :=
  ⟨"binary_little_endian", "1.0",
    [("vertex", ⟨"vertex", jn 2, ["foo"]⟩)]⟩

def dedupInv (st : OBJ.DedupState) : Prop :=
  ∀ k i, OBJ.lookupKey st.vertexMap k = some i → i < st.vertices.length

def c5Scene : Scene :=
  createScene
    [createMesh "default"
      [createVertex (createVec3 (jn 0) (jn 0) (jn 0)) none none,
        createVertex (createVec3 (jn 1) (jn 0) (jn 0)) none none,
        createVertex (createVec3 (jn 0) (jn 1) (jn 0)) none none]
      [createFace [jn 0, jn 1, jn 2] none, createFace [jn 0, jn 1, jn 2] none]
      none]
    []
    ⟨"OBJ", jn 3, jn 2,
      some ⟨createVec3 (jn 0) (jn 0) (jn 0), createVec3 (jn 1) (jn 1) (jn 0)⟩⟩

def c5St : OBJ.DedupState :=
  ⟨[("0--1--1", 0)], [createVertex (createVec3 (jn 0) (jn 0) (jn 0)) none none]⟩

/-- C1.  The claim says no parser may throw past the component boundary and
that an OBJ face referencing 1-based index 5 among 3 positions yields an
index-out-of-bounds error Result naming the offending mesh/face path.  The
code instead throws: `getOrCreateVertex` in `obj.ts` executes
`throw new Error("Position index 4 out of bounds")`, which escapes
`parseOBJ` uncaught — no Result is returned and no mesh/face path is
named.  This theorem evaluates the embedded parser at the failing input. -/
theorem obj_out_of_range_face_throws :
    OBJ.parseOBJ "v 0 0 0\nv 1 0 0\nv 0 1 0\nf 1 2 5" =
      .thrown "Position index 4 out of bounds" := by decide

/-- C6.  Parsing the four-line OBJ text succeeds with exactly 3 vertices and
1 face whose indices are [0,1,2]; re-encoding that Scene with `toOBJ` and
re-parsing the result reproduces the very same Scene (so in particular the
vertex and face counts are preserved). -/
theorem obj_roundtrip_three_vertices :
    OBJ.parseOBJ objInput = .ok objScene ∧
    objScene.meshes.map (fun m => m.vertices.length) = [3] ∧
    objScene.meshes.map (fun m => m.faces.map (fun f => f.indices)) =
      [[[jn 0, jn 1, jn 2]]] ∧
    objScene.metadata.vertexCount = jn 3 ∧ objScene.metadata.faceCount = jn 1 ∧
    OBJConv.toOBJ objScene = .ok objRoundTripText ∧
    OBJ.parseOBJ objRoundTripText = .ok objScene := by decide

/-- C7.  The ASCII PLY with `element vertex 3` / `element face 1`, three
vertex lines and the face line `3 0 1 2` parses to exactly the same
canonical Scene (vertices, faces, metadata counts, bounding box) as the
binary_little_endian encoding of the identical header-declared properties
and values. -/
theorem ply_ascii_binary_same_scene :
    PLY.parseASCII plyAsciiInput = .ok plyScene ∧
    PLY.parseBinaryFromArrayBuffer plyBinaryInput = .ok plyScene := by decide

/-- C10.  `parsePLY` returns its Scene without applying the Scene validator:
on an ASCII PLY whose face references index 5 with 3 vertices it returns Ok,
the returned Scene carries the out-of-bounds index, and that Scene violates
the §4.5 face-index invariant (the validator rejects it, and the invariant
predicate is false). -/
theorem ply_parse_no_validation :
    PLY.parsePLYString plyOobInput = .ok plyOobScene ∧
    plyOobScene.meshes.map (fun m => m.faces.map (fun f => f.indices)) =
      [[[jn 0, jn 1, jn 5]]] ∧
    validateScene plyOobScene =
      .err ⟨"Face index 5 is out of bounds (0-2)", "INDEX_OUT_OF_BOUNDS",
            some "mesh.default.faces[0]"⟩ ∧
    sceneInv plyOobScene = false := by decide

/-- The CRLF-aware line split never produces the empty list. -/
theorem splitOnCrNl_ne_nil (cs : List Char) : splitOnCrNl cs ≠ [] := by
  unfold splitOnCrNl
  split
  · simp
  · simp
  · simp
  · split <;> simp

/-- The string version of the line split never produces the empty list. -/
theorem jsSplitCrNl_ne_nil (s : String) : jsSplitCrNl s ≠ [] := by
  unfold jsSplitCrNl
  intro h
  exact splitOnCrNl_ne_nil s.data (by simpa using h)

/-- C8.  For every PLY text input whose first line is the `ply` magic and
none of whose lines is `end_header`, `parsePLY` (the typed parser variant,
whose `parseHeader` searches for `end_header` before examining any other
header line) fails with the message "Missing end_header" and a line number
equal to the number of lines in the input. -/
theorem ply2_missing_end_header (content : String)
    (h1 : jsTrim ((jsSplitCrNl content).headD "") = "ply")
    (h2 : ∀ l ∈ jsSplitCrNl content, ¬(jsTrim l = "end_header")) :
    PLY2.parsePLYString content =
      .err ⟨"Missing end_header", ((jsSplitCrNl content).length : ℤ)⟩ := by
  have hne : jsSplitCrNl content ≠ [] := jsSplitCrNl_ne_nil content
  have hlen : ¬((jsSplitCrNl content).length = 0) := by
    simpa [List.length_eq_zero] using hne
  have hf : (jsSplitCrNl content).findIdx? (fun l => jsTrim l == "end_header") = none := by
    rw [List.findIdx?_eq_none_iff]
    intro x hx
    simpa using h2 x hx
  unfold PLY2.parsePLYString PLY2.parseASCII PLY2.parseHeader
  rw [if_neg hlen, if_neg (by simp [← List.headD_eq_head?_getD, h1]), hf]

/-- Witness for C8 at a concrete two-line input. -/
theorem ply2_missing_end_header_witness :
    PLY2.parsePLYString "ply\nformat ascii 1.0" =
      .err ⟨"Missing end_header", ((jsSplitCrNl "ply\nformat ascii 1.0").length : ℤ)⟩ :=
  ply2_missing_end_header "ply\nformat ascii 1.0" (by decide) (by decide)

/-- C9.  For every decoded glTF JSON document lacking a (truthy)
`asset.version` — whether `asset` is absent, falsy, or present without a
truthy `version` — `parseGLTF` returns the missing-asset error, regardless
of the content of buffers, bufferViews, accessors or meshes: the buffer
decoding and accessor stages are never reached because the chain
short-circuits on the first error. -/
theorem gltf_missing_asset_short_circuits (json : Json)
    (h : ∀ asset, jsonGet json "asset" = some asset →
      jsonTruthy asset = false ∨ jsonTruthyOpt (jsonGet asset "version") = false) :
    GLTF.parseGLTF json = .err ⟨"Invalid GLTF: missing asset information", none⟩ := by
  have hp : GLTF.parseJSON json = .err ⟨"Invalid GLTF: missing asset information", none⟩ := by
    unfold GLTF.parseJSON
    cases hj : jsonGet json "asset" with
    | none => rfl
    | some asset =>
      rcases h asset hj with h1 | h2
      · simp [h1]
      · cases ht : jsonTruthy asset with
        | false => simp [ht]
        | true => simp [ht, h2]
  unfold GLTF.parseGLTF
  rw [hp]

/-- Witness for C9: a document with no `asset` entry but with a declared
buffer whose URI is malformed still yields exactly the missing-asset
error. -/
theorem gltf_missing_asset_short_circuits_witness :
    GLTF.parseGLTF gltfNoAsset = .err ⟨"Invalid GLTF: missing asset information", none⟩ :=
  gltf_missing_asset_short_circuits gltfNoAsset (by
    intro a ha
    have hn : jsonGet gltfNoAsset "asset" = none := rfl
    rw [hn] at ha
    cases ha)

/-! ### Supporting lemmas for the validator equivalence (C2) -/

theorem validateNumber_ok (v : JSNum) (h : v.isFinite = true) : validateNumber v = .ok v := by
  unfold validateNumber
  rw [h]
  rfl

theorem validateNumber_err (v : JSNum) (h : v.isFinite = false) :
    ∃ e, validateNumber v = .err e := by
  unfold validateNumber
  rw [h]
  exact ⟨_, rfl⟩

theorem validateVec3_ok (vec : Vec3) (h : finiteVec3 vec = true) : validateVec3 vec = .ok vec := by
  unfold finiteVec3 at h
  simp only [Bool.and_eq_true] at h
  unfold validateVec3
  rw [validateNumber_ok _ h.1.1, validateNumber_ok _ h.1.2, validateNumber_ok _ h.2]

theorem validateVec3_err (vec : Vec3) (h : finiteVec3 vec = false) :
    ∃ e, validateVec3 vec = .err e := by
  unfold validateVec3
  cases hx : vec.x.isFinite with
  | false =>
    obtain ⟨e, he⟩ := validateNumber_err vec.x hx
    rw [he]; exact ⟨_, rfl⟩
  | true =>
    rw [validateNumber_ok _ hx]
    cases hy : vec.y.isFinite with
    | false =>
      obtain ⟨e, he⟩ := validateNumber_err vec.y hy
      rw [he]; exact ⟨_, rfl⟩
    | true =>
      rw [validateNumber_ok _ hy]
      cases hz : vec.z.isFinite with
      | false =>
        obtain ⟨e, he⟩ := validateNumber_err vec.z hz
        rw [he]; exact ⟨_, rfl⟩
      | true =>
        exfalso
        unfold finiteVec3 at h
        rw [hx, hy, hz] at h
        simp at h

theorem validateVertex_ok (v : Vertex) (h : vertexInv v = true) : validateVertex v = .ok v := by
  unfold vertexInv at h
  simp only [Bool.and_eq_true] at h
  unfold validateVertex
  rw [validateVec3_ok _ h.1]
  cases hn : v.normal with
  | none => rfl
  | some nv =>
    have h2 : finiteVec3 nv = true := by
      have := h.2
      rw [hn] at this
      simpa [Option.all] using this
    dsimp only
    rw [validateVec3_ok _ h2]

theorem validateVertex_err (v : Vertex) (h : vertexInv v = false) :
    ∃ e, validateVertex v = .err e := by
  unfold validateVertex
  cases hp : finiteVec3 v.position with
  | false =>
    obtain ⟨e, he⟩ := validateVec3_err v.position hp
    rw [he]; exact ⟨_, rfl⟩
  | true =>
    rw [validateVec3_ok _ hp]
    cases hn : v.normal with
    | none =>
      exfalso
      unfold vertexInv at h
      rw [hp, hn] at h
      simp [Option.all] at h
    | some nv =>
      dsimp only
      cases hnv : finiteVec3 nv with
      | false =>
        obtain ⟨e, he⟩ := validateVec3_err nv hnv
        rw [he]; exact ⟨_, rfl⟩
      | true =>
        exfalso
        unfold vertexInv at h
        rw [hp, hn] at h
        simp [Option.all, hnv] at h

/-- The validator's per-index rejection condition is exactly the negation of
the spec's per-index invariant. -/
theorem bad_idx_cond (n : Nat) (i : JSNum) :
    (!i.isIntegerJS || JSNum.lt i (jn 0) || JSNum.le (jn n) i) = !(goodIdx n i) := by
  cases i with
  | nan => rfl
  | inf => rfl
  | ninf => rfl
  | num q =>
    by_cases hd : q.d = 1
    · simp only [goodIdx, JSNum.isIntegerJS, JSNum.lt, JSNum.le, jn, Q.blt, Q.ble, hd]
      rw [Bool.eq_iff_iff]
      simp
    · unfold goodIdx
      have hI : (JSNum.num q).isIntegerJS = false := by
        simp [JSNum.isIntegerJS, hd]
      rw [hI]
      rfl

theorem checkIndicesLoop_none_iff (n : Nat) (l : List JSNum) :
    checkIndicesLoop n l = none ↔ l.all (goodIdx n) = true := by
  induction l with
  | nil => simp [checkIndicesLoop]
  | cons i rest ih =>
    unfold checkIndicesLoop
    rw [bad_idx_cond]
    cases hg : goodIdx n i with
    | false => simp [hg]
    | true => simp [hg, ih]

theorem validateFaceIndices_ok_iff (ids : List JSNum) (n : Nat) :
    validateFaceIndices ids n = .ok ids ↔ faceInv n ⟨ids, none⟩ = true := by
  unfold validateFaceIndices faceInv
  by_cases hl : ids.length < 3
  · have h3 : ¬(3 ≤ ids.length) := by omega
    simp [hl, h3]
  · have h3 : 3 ≤ ids.length := by omega
    rw [if_neg hl]
    cases hc : checkIndicesLoop n ids with
    | some e =>
      have : ¬(ids.all (goodIdx n) = true) := by
        intro hall
        rw [(checkIndicesLoop_none_iff n ids).mpr hall] at hc
        cases hc
      simp [h3, this]
    | none =>
      have hall := (checkIndicesLoop_none_iff n ids).mp hc
      simp [h3, hall]

theorem validateFaceIndices_cases (ids : List JSNum) (n : Nat) :
    validateFaceIndices ids n = .ok ids ∨ ∃ e, validateFaceIndices ids n = .err e := by
  unfold validateFaceIndices
  by_cases hl : ids.length < 3
  · rw [if_pos hl]; exact Or.inr ⟨_, rfl⟩
  · rw [if_neg hl]
    cases hc : checkIndicesLoop n ids with
    | some e => exact Or.inr ⟨_, rfl⟩
    | none => exact Or.inl rfl

theorem validateVerticesLoop_none_iff (name : String) (vs : List Vertex) :
    ∀ i, validateVerticesLoop name i vs = none ↔ vs.all vertexInv = true := by
  induction vs with
  | nil => intro i; simp [validateVerticesLoop]
  | cons v rest ih =>
    intro i
    unfold validateVerticesLoop
    cases hv : vertexInv v with
    | false =>
      obtain ⟨e, he⟩ := validateVertex_err v hv
      rw [he]
      simp [hv]
    | true =>
      rw [validateVertex_ok v hv]
      simp [hv, ih (i + 1)]

theorem validateFacesLoop_none_iff (name : String) (n : Nat) (fs : List Face) :
    ∀ i, validateFacesLoop name n i fs = none ↔ fs.all (faceInv n) = true := by
  induction fs with
  | nil => intro i; simp [validateFacesLoop]
  | cons f rest ih =>
    intro i
    unfold validateFacesLoop
    have hface : faceInv n f = faceInv n ⟨f.indices, none⟩ := by
      unfold faceInv
      rfl
    rcases validateFaceIndices_cases f.indices n with hok | ⟨e, he⟩
    · rw [hok]
      have hf : faceInv n f = true := by
        rw [hface]
        exact (validateFaceIndices_ok_iff f.indices n).mp hok
      simp [hf, ih (i + 1)]
    · rw [he]
      have hf : ¬(faceInv n f = true) := by
        rw [hface]
        intro hc
        rw [(validateFaceIndices_ok_iff f.indices n).mpr hc] at he
        cases he
      simp [hf]

theorem validateMesh_ok_iff (m : Mesh) : validateMesh m = .ok m ↔ meshInv m = true := by
  unfold validateMesh meshInv
  by_cases hz : m.vertices.length = 0
  · have : m.vertices.isEmpty = true := by
      cases hv : m.vertices with
      | nil => rfl
      | cons a t => rw [hv] at hz; cases hz
    simp [hz, this]
  · have hne : m.vertices.isEmpty = false := by
      cases hv : m.vertices with
      | nil => rw [hv] at hz; simp at hz
      | cons a t => rfl
    rw [if_neg hz]
    cases hv : validateVerticesLoop m.name 0 m.vertices with
    | some e =>
      have : ¬(m.vertices.all vertexInv = true) := by
        intro hall
        rw [(validateVerticesLoop_none_iff m.name m.vertices 0).mpr hall] at hv
        cases hv
      simp [hne, this]
    | none =>
      have hall := (validateVerticesLoop_none_iff m.name m.vertices 0).mp hv
      cases hf : validateFacesLoop m.name m.vertices.length 0 m.faces with
      | some e =>
        have : ¬(m.faces.all (faceInv m.vertices.length) = true) := by
          intro hfall
          rw [(validateFacesLoop_none_iff m.name m.vertices.length m.faces 0).mpr hfall] at hf
          cases hf
        simp [hne, hall, this]
      | none =>
        have hfall := (validateFacesLoop_none_iff m.name m.vertices.length m.faces 0).mp hf
        simp [hne, hall, hfall]

theorem validateMesh_cases (m : Mesh) :
    validateMesh m = .ok m ∨ ∃ e, validateMesh m = .err e := by
  unfold validateMesh
  by_cases hz : m.vertices.length = 0
  · rw [if_pos hz]; exact Or.inr ⟨_, rfl⟩
  · rw [if_neg hz]
    cases hv : validateVerticesLoop m.name 0 m.vertices with
    | some e => exact Or.inr ⟨_, rfl⟩
    | none =>
      cases hf : validateFacesLoop m.name m.vertices.length 0 m.faces with
      | some e => exact Or.inr ⟨_, rfl⟩
      | none => exact Or.inl rfl

theorem validateMeshesLoop_none_iff (ms : List Mesh) :
    validateMeshesLoop ms = none ↔ ms.all meshInv = true := by
  induction ms with
  | nil => simp [validateMeshesLoop]
  | cons m rest ih =>
    unfold validateMeshesLoop
    rcases validateMesh_cases m with hok | ⟨e, he⟩
    · rw [hok]
      have hm : meshInv m = true := (validateMesh_ok_iff m).mp hok
      simp [hm, ih]
    · rw [he]
      have hm : ¬(meshInv m = true) := by
        intro hc
        rw [(validateMesh_ok_iff m).mpr hc] at he
        cases he
      simp [hm]

/-- Strict equality against an integral number coincides with structural
equality. -/
theorem strictEq_jn (x : JSNum) (z : ℤ) : x.strictEq (jn z) = (x == jn z) := by
  cases x <;> rfl

/-- The main equivalence behind C2: the validator accepts a scene (returning
that very scene) exactly when the §4.5 invariants all hold. -/
theorem validateScene_ok_iff (s : Scene) : validateScene s = .ok s ↔ sceneInv s = true := by
  unfold validateScene sceneInv
  by_cases hz : s.meshes.length = 0
  · have : s.meshes.isEmpty = true := by
      cases hv : s.meshes with
      | nil => rfl
      | cons a t => rw [hv] at hz; cases hz
    simp [hz, this]
  · have hne : s.meshes.isEmpty = false := by
      cases hv : s.meshes with
      | nil => rw [hv] at hz; simp at hz
      | cons a t => rfl
    rw [if_neg hz]
    cases hm : validateMeshesLoop s.meshes with
    | some e =>
      have : ¬(s.meshes.all meshInv = true) := by
        intro hall
        rw [(validateMeshesLoop_none_iff s.meshes).mpr hall] at hm
        cases hm
      simp [hne, this]
    | none =>
      have hall := (validateMeshesLoop_none_iff s.meshes).mp hm
      dsimp only
      rw [strictEq_jn, strictEq_jn]
      cases hvc : s.metadata.vertexCount == jn (totalVertexCount s.meshes) with
      | false => simp [hne, hall, hvc]
      | true =>
        cases hfc : s.metadata.faceCount == jn (totalFaceCount s.meshes) with
        | false => simp [hne, hall, hvc, hfc]
        | true => simp [hne, hall, hvc, hfc]

theorem validateScene_cases (s : Scene) :
    validateScene s = .ok s ∨ ∃ e, validateScene s = .err e := by
  unfold validateScene
  by_cases hz : s.meshes.length = 0
  · rw [if_pos hz]; exact Or.inr ⟨_, rfl⟩
  · rw [if_neg hz]
    cases hm : validateMeshesLoop s.meshes with
    | some e => exact Or.inr ⟨_, rfl⟩
    | none =>
      dsimp only
      cases hvc : s.metadata.vertexCount.strictEq (jn (totalVertexCount s.meshes)) with
      | false => exact Or.inr ⟨_, rfl⟩
      | true =>
        cases hfc : s.metadata.faceCount.strictEq (jn (totalFaceCount s.meshes)) with
        | false => exact Or.inr ⟨_, rfl⟩
        | true => exact Or.inl rfl

/-- C2.  `validateScene` returns `Ok(S)` exactly for the Scenes satisfying
the §4.5 invariants (first conjunct), never returns anything but `Ok(S)` or
an error (second conjunct), and each single-invariant violation produces its
own distinct, path-qualified failure (remaining conjuncts: one concrete
scene per invariant, each yielding a distinct error code, with the path
naming the offending mesh/vertex/face/metadata field where one exists — the
scene-level empty-scene violation carries no deeper path).  The final
conjunct shows fail-fast short-circuiting: a scene violating both a mesh
invariant and the metadata invariant reports only the first violation. -/
theorem validateScene_matches_spec :
    (∀ s : Scene, validateScene s = .ok s ↔ sceneInv s = true) ∧
    (∀ s : Scene, validateScene s = .ok s ∨ ∃ e, validateScene s = .err e) ∧
    validateScene sEmptyScene =
      .err ⟨"Scene must have at least one mesh", "EMPTY_SCENE", none⟩ ∧
    validateScene sEmptyMesh =
      .err ⟨"Mesh must have at least one vertex", "EMPTY_MESH", some "mesh.m"⟩ ∧
    validateScene sBadVert =
      .err ⟨"Invalid number: NaN", "INVALID_NUMBER", some "mesh.m.vertices[0]"⟩ ∧
    validateScene sShortFace =
      .err ⟨"Face must have at least 3 indices", "INVALID_FACE_SIZE", some "mesh.m.faces[0]"⟩ ∧
    validateScene sOobFace =
      .err ⟨"Face index 5 is out of bounds (0-2)", "INDEX_OUT_OF_BOUNDS",
            some "mesh.m.faces[0]"⟩ ∧
    validateScene sBadMeta =
      .err ⟨"Metadata vertex count (5) doesn" ++ apos ++ "t match actual count (1)",
            "METADATA_MISMATCH", some "scene.metadata.vertexCount"⟩ ∧
    (["EMPTY_SCENE", "EMPTY_MESH", "INVALID_NUMBER", "INVALID_FACE_SIZE",
      "INDEX_OUT_OF_BOUNDS", "METADATA_MISMATCH"] : List String).Pairwise (fun a b => a ≠ b) ∧
    validateScene sMultiViolation =
      .err ⟨"Mesh must have at least one vertex", "EMPTY_MESH", some "mesh.m"⟩ :=
  ⟨validateScene_ok_iff, validateScene_cases, by decide, by decide, by decide, by decide,
    by decide, by decide, by decide, by decide⟩

/-! ### Supporting lemmas for binary truncation (C4) -/

/-- A natural-number loop bound converts to itself. -/
theorem loopCount_jn (n : ℕ) : (jn n).loopCount = n := by
  unfold jn JSNum.loopCount
  dsimp only
  by_cases h0 : ((n : ℤ) ≤ 0)
  · have hn : n = 0 := by omega
    subst hn
    simp
  · rw [if_neg h0]
    unfold Q.ceilI
    simp [Int.fdiv_one]

/-- One binary vertex record of `ply.ts` consumes 4 bytes per declared
property; when the buffer cannot hold them all, the read fails with the
end-of-file error. -/
theorem readVertexProps_eof (buf : Bytes) (le : Bool) :
    ∀ (props : List String) (off : Nat) (pos : Option Vec3),
      buf.length < off + 4 * props.length → props ≠ [] →
      PLY.readVertexProps buf le props off pos =
        .err ⟨"Unexpected end of file in binary data", -1⟩ := by
  intro props
  induction props with
  | nil => intro off pos hlen hne; exact absurd rfl hne
  | cons p rest ih =>
    intro off pos hlen _
    unfold PLY.readVertexProps PLY.readFloat32
    by_cases h4 : buf.length < off + 4
    · rw [if_pos h4]
    · rw [if_neg h4]
      have hrest : rest ≠ [] := by
        intro hr
        rw [hr] at hlen
        simp at hlen
        omega
      have hlen2 : buf.length < (off + 4) + 4 * rest.length := by
        simp [List.length_cons] at hlen
        omega
      exact ih (off + 4) _ hlen2 hrest

/-- When the buffer does hold one full record, the per-vertex property read
succeeds, advances exactly `4 * |props|` bytes, and has set the position
whenever one of `x`/`y`/`z` was among the properties (or it was already
set). -/
theorem readVertexProps_ok (buf : Bytes) (le : Bool) :
    ∀ (props : List String) (off : Nat) (pos : Option Vec3),
      off + 4 * props.length ≤ buf.length →
      ∃ pos2, PLY.readVertexProps buf le props off pos = .ok (pos2, off + 4 * props.length) ∧
        (("x" ∈ props ∨ "y" ∈ props ∨ "z" ∈ props ∨ pos.isSome = true) → pos2.isSome = true) := by
  intro props
  induction props with
  | nil =>
    intro off pos hlen
    refine ⟨pos, by simp [PLY.readVertexProps], ?_⟩
    intro h
    rcases h with h | h | h | h
    · cases h
    · cases h
    · cases h
    · exact h
  | cons p rest ih =>
    intro off pos hlen
    have hlc : (p :: rest).length = rest.length + 1 := List.length_cons p rest
    rw [hlc] at hlen
    have h4 : ¬(buf.length < off + 4) := by omega
    have hlen2 : (off + 4) + 4 * rest.length ≤ buf.length := by omega
    unfold PLY.readVertexProps PLY.readFloat32
    rw [if_neg h4]
    dsimp only
    obtain ⟨posf, hrun, hsome⟩ := ih (off + 4)
      (if p = "x" then
        some (createVec3 (getFloat32 buf off le) (orZero (pos.map (fun p => p.y)))
          (orZero (pos.map (fun p => p.z))))
      else if p = "y" then
        some (createVec3 (orZero (pos.map (fun p => p.x))) (getFloat32 buf off le)
          (orZero (pos.map (fun p => p.z))))
      else if p = "z" then
        some (createVec3 (orZero (pos.map (fun p => p.x))) (orZero (pos.map (fun p => p.y)))
          (getFloat32 buf off le))
      else pos) hlen2
    refine ⟨posf, ?_, ?_⟩
    · rw [hrun]
      have he : off + 4 + 4 * rest.length = off + 4 * (rest.length + 1) := by omega
      rw [hlc, he]
    · intro h
      apply hsome
      by_cases hx : p = "x"
      · right; right; right; simp [hx]
      · by_cases hy : p = "y"
        · right; right; right; simp [hx, hy]
        · by_cases hz : p = "z"
          · right; right; right; simp [hx, hy, hz]
          · rw [if_neg hx, if_neg hy, if_neg hz]
            rcases h with h | h | h | h
            · rcases List.mem_cons.mp h with he2 | hm
              · exact absurd he2.symm hx
              · exact Or.inl hm
            · rcases List.mem_cons.mp h with he2 | hm
              · exact absurd he2.symm hy
              · exact Or.inr (Or.inl hm)
            · rcases List.mem_cons.mp h with he2 | hm
              · exact absurd he2.symm hz
              · exact Or.inr (Or.inr (Or.inl hm))
            · exact Or.inr (Or.inr (Or.inr h))

/-- Vertex-loop truncation of `ply.ts`: when the declared vertex records
demand more bytes than the buffer holds, the loop fails with the
end-of-file error (and no vertex list is produced). -/
theorem readVertices_eof (buf : Bytes) (le : Bool) (props : List String)
    (hx : "x" ∈ props ∨ "y" ∈ props ∨ "z" ∈ props) :
    ∀ (k off : Nat) (acc : List Vertex), 1 ≤ k →
      buf.length < off + k * (4 * props.length) →
      PLY.readVertices buf le props k off acc =
        .err ⟨"Unexpected end of file in binary data", -1⟩ := by
  have hpne : props ≠ [] := by
    intro hp
    rw [hp] at hx
    rcases hx with h | h | h <;> cases h
  intro k
  induction k with
  | zero => intro off acc h1 _; exact absurd h1 (by omega)
  | succ w ih =>
    intro off acc _ hlen
    have hmul : (w + 1) * (4 * props.length) = 4 * props.length + w * (4 * props.length) :=
      by ring
    rw [hmul] at hlen
    unfold PLY.readVertices
    by_cases hfit : off + 4 * props.length ≤ buf.length
    · obtain ⟨pos2, hrun, hsome⟩ := readVertexProps_ok buf le props off none hfit
      rw [hrun]
      dsimp only
      have hs : pos2.isSome = true := by
        apply hsome
        rcases hx with h | h | h
        · exact Or.inl h
        · exact Or.inr (Or.inl h)
        · exact Or.inr (Or.inr (Or.inl h))
      obtain ⟨p, hp⟩ := Option.isSome_iff_exists.mp hs
      rw [hp]
      dsimp only
      by_cases hw : w = 0
      · exfalso
        rw [hw] at hlen
        simp at hlen
        omega
      · exact ih (off + 4 * props.length) (acc ++ [createVertex p none none]) (by omega)
          (by omega)
    · rw [readVertexProps_eof buf le props off none (by omega) hpne]

/-- Vertex-loop success of `ply.ts` when the buffer holds exactly enough
bytes: the loop consumes `k` records of `4 * |props|` bytes each. -/
theorem readVertices_ok (buf : Bytes) (le : Bool) (props : List String)
    (hx : "x" ∈ props ∨ "y" ∈ props ∨ "z" ∈ props) :
    ∀ (k off : Nat) (acc : List Vertex),
      off + k * (4 * props.length) ≤ buf.length →
      ∃ vs, PLY.readVertices buf le props k off acc =
        .ok (vs, off + k * (4 * props.length)) := by
  intro k
  induction k with
  | zero =>
    intro off acc _
    exact ⟨acc, by simp [PLY.readVertices]⟩
  | succ w ih =>
    intro off acc hlen
    have hmul : (w + 1) * (4 * props.length) = 4 * props.length + w * (4 * props.length) :=
      by ring
    rw [hmul] at hlen ⊢
    have hfit : off + 4 * props.length ≤ buf.length := by omega
    obtain ⟨pos2, hrun, hsome⟩ := readVertexProps_ok buf le props off none hfit
    unfold PLY.readVertices
    rw [hrun]
    dsimp only
    have hs : pos2.isSome = true := by
      apply hsome
      rcases hx with h | h | h
      · exact Or.inl h
      · exact Or.inr (Or.inl h)
      · exact Or.inr (Or.inr (Or.inl h))
    obtain ⟨p, hp⟩ := Option.isSome_iff_exists.mp hs
    rw [hp]
    dsimp only
    have hlen2 : (off + 4 * props.length) + w * (4 * props.length) ≤ buf.length := by omega
    obtain ⟨vs, hrun2⟩ := ih (off + 4 * props.length) (acc ++ [createVertex p none none]) hlen2
    refine ⟨vs, ?_⟩
    rw [hrun2]
    have he : (off + 4 * props.length) + w * (4 * props.length) =
        off + (4 * props.length + w * (4 * props.length)) := by omega
    rw [he]

/-- A face record whose only property is the `vertex_indices` list fails at
once with the end-of-file error when not even its one-byte count fits. -/
theorem readFaceProps_vi_eof (buf : Bytes) (le : Bool) (off : Nat)
    (h : buf.length < off + 1) :
    PLY.readFaceProps buf le ["vertex_indices"] off [] =
      .err ⟨"Unexpected end of file in binary data", -1⟩ := by
  unfold PLY.readFaceProps PLY.readUint8
  simp [h]

/-- `readFloat32` of `ply.ts` fails only with the end-of-file error. -/
theorem readFloat32_err (buf : Bytes) (le : Bool) (off : Nat) (e : PLY.ParseError)
    (h : PLY.readFloat32 buf le off = .err e) :
    e = ⟨"Unexpected end of file in binary data", -1⟩ := by
  unfold PLY.readFloat32 at h
  split_ifs at h <;> simp_all

/-- `readUint8` of `ply.ts` fails only with the end-of-file error. -/
theorem readUint8_err (buf : Bytes) (off : Nat) (e : PLY.ParseError)
    (h : PLY.readUint8 buf off = .err e) :
    e = ⟨"Unexpected end of file in binary data", -1⟩ := by
  unfold PLY.readUint8 at h
  split_ifs at h <;> simp_all

/-- `readInt32` of `ply.ts` fails only with the end-of-file error. -/
theorem readInt32_err (buf : Bytes) (le : Bool) (off : Nat) (e : PLY.ParseError)
    (h : PLY.readInt32 buf le off = .err e) :
    e = ⟨"Unexpected end of file in binary data", -1⟩ := by
  unfold PLY.readInt32 at h
  split_ifs at h <;> simp_all

/-- The face index loop of `ply.ts` fails only with the end-of-file error. -/
theorem readIndices_err (buf : Bytes) (le : Bool) :
    ∀ (j off : Nat) (acc : List JSNum) (e : PLY.ParseError),
      PLY.readIndices buf le j off acc = .err e →
      e = ⟨"Unexpected end of file in binary data", -1⟩ := by
  intro j
  induction j with
  | zero => intro off acc e h; unfold PLY.readIndices at h; cases h
  | succ w ih =>
    intro off acc e h
    unfold PLY.readIndices at h
    cases hr : PLY.readInt32 buf le off with
    | err e2 =>
      rw [hr] at h
      dsimp only at h
      injection h with h
      subst h
      exact readInt32_err buf le off e2 hr
    | ok pr =>
      obtain ⟨v, offa⟩ := pr
      rw [hr] at h
      dsimp only at h
      exact ih offa (acc ++ [v]) e h

/-- When the face index list extends past the buffer, the index loop fails
with the end-of-file error. -/
theorem readIndices_eof (buf : Bytes) (le : Bool) :
    ∀ (j off : Nat) (acc : List JSNum), 1 ≤ j →
      buf.length < off + 4 * j →
      PLY.readIndices buf le j off acc =
        .err ⟨"Unexpected end of file in binary data", -1⟩ := by
  intro j
  induction j with
  | zero => intro off acc h1 _; exact absurd h1 (by omega)
  | succ w ih =>
    intro off acc _ hlen
    unfold PLY.readIndices PLY.readInt32
    by_cases hfit : off + 4 ≤ buf.length
    · rw [if_neg (by omega)]
      dsimp only
      by_cases hw : w = 0
      · exfalso
        rw [hw] at hlen
        omega
      · exact ih (off + 4) _ (by omega) (by omega)
    · rw [if_pos (by omega)]

/-- A successful face index loop never moves the cursor past the buffer. -/
theorem readIndices_ok_bound (buf : Bytes) (le : Bool) :
    ∀ (j off : Nat) (acc vs : List JSNum) (off2 : Nat),
      off ≤ buf.length →
      PLY.readIndices buf le j off acc = .ok (vs, off2) →
      off ≤ off2 ∧ off2 ≤ buf.length := by
  intro j
  induction j with
  | zero =>
    intro off acc vs off2 hb h
    unfold PLY.readIndices at h
    injection h with h
    injection h with h1 h2
    subst h2
    exact ⟨Nat.le_refl _, hb⟩
  | succ w ih =>
    intro off acc vs off2 hb h
    unfold PLY.readIndices at h
    cases hr : PLY.readInt32 buf le off with
    | err e => rw [hr] at h; cases h
    | ok pr =>
      obtain ⟨v, offa⟩ := pr
      rw [hr] at h
      dsimp only at h
      unfold PLY.readInt32 at hr
      split_ifs at hr with hc
      injection hr with hr
      injection hr with hr1 hr2
      subst hr2
      obtain ⟨ha, hb2⟩ := ih (off + 4) (acc ++ [v]) vs off2 (by omega) h
      exact ⟨by omega, hb2⟩

/-- The face property loop of `ply.ts` fails only with the end-of-file
error, whatever the property list, offset or truncation point. -/
theorem readFaceProps_err (buf : Bytes) (le : Bool) :
    ∀ (props : List String) (off : Nat) (acc : List JSNum) (e : PLY.ParseError),
      PLY.readFaceProps buf le props off acc = .err e →
      e = ⟨"Unexpected end of file in binary data", -1⟩ := by
  intro props
  induction props with
  | nil => intro off acc e h; unfold PLY.readFaceProps at h; cases h
  | cons prop rest ih =>
    intro off acc e h
    unfold PLY.readFaceProps at h
    split_ifs at h
    · cases hr : PLY.readUint8 buf off with
      | err e2 =>
        rw [hr] at h
        dsimp only at h
        injection h with h
        subst h
        exact readUint8_err buf off e2 hr
      | ok pr =>
        obtain ⟨cnt, offa⟩ := pr
        rw [hr] at h
        dsimp only at h
        cases hs : PLY.readIndices buf le cnt.loopCount offa [] with
        | err e2 =>
          rw [hs] at h
          dsimp only at h
          injection h with h
          subst h
          exact readIndices_err buf le cnt.loopCount offa [] e2 hs
        | ok pr2 =>
          obtain ⟨vs, offb⟩ := pr2
          rw [hs] at h
          dsimp only at h
          exact ih offb (acc ++ vs) e h
    · cases hr : PLY.readUint8 buf off with
      | err e2 =>
        rw [hr] at h
        dsimp only at h
        injection h with h
        subst h
        exact readUint8_err buf off e2 hr
      | ok pr =>
        obtain ⟨v, offa⟩ := pr
        rw [hr] at h
        dsimp only at h
        exact ih offa acc e h
    · exact ih off acc e h

/-- A successful face property loop never moves the cursor past the
buffer. -/
theorem readFaceProps_ok_bound (buf : Bytes) (le : Bool) :
    ∀ (props : List String) (off : Nat) (acc is : List JSNum) (off2 : Nat),
      off ≤ buf.length →
      PLY.readFaceProps buf le props off acc = .ok (is, off2) →
      off ≤ off2 ∧ off2 ≤ buf.length := by
  intro props
  induction props with
  | nil =>
    intro off acc is off2 hb h
    unfold PLY.readFaceProps at h
    injection h with h
    injection h with h1 h2
    subst h2
    exact ⟨Nat.le_refl _, hb⟩
  | cons prop rest ih =>
    intro off acc is off2 hb h
    unfold PLY.readFaceProps at h
    split_ifs at h
    · cases hr : PLY.readUint8 buf off with
      | err e => rw [hr] at h; cases h
      | ok pr =>
        obtain ⟨cnt, offa⟩ := pr
        rw [hr] at h
        dsimp only at h
        unfold PLY.readUint8 at hr
        split_ifs at hr with hc
        injection hr with hr
        injection hr with hr1 hr2
        subst hr2
        cases hs : PLY.readIndices buf le cnt.loopCount (off + 1) [] with
        | err e => rw [hs] at h; cases h
        | ok pr2 =>
          obtain ⟨vs, offb⟩ := pr2
          rw [hs] at h
          dsimp only at h
          obtain ⟨hia, hib⟩ := readIndices_ok_bound buf le
            cnt.loopCount (off + 1) [] vs offb (by omega) hs
          obtain ⟨hra, hrb⟩ := ih offb (acc ++ vs) is off2 hib h
          exact ⟨by omega, hrb⟩
    · cases hr : PLY.readUint8 buf off with
      | err e => rw [hr] at h; cases h
      | ok pr =>
        obtain ⟨v, offa⟩ := pr
        rw [hr] at h
        dsimp only at h
        unfold PLY.readUint8 at hr
        split_ifs at hr with hc
        injection hr with hr
        injection hr with hr1 hr2
        subst hr2
        obtain ⟨hra, hrb⟩ := ih (off + 1) acc is off2 (by omega) h
        exact ⟨by omega, hrb⟩
    · exact ih off acc is off2 hb h

/-- The face loop of `ply.ts` fails only with the end-of-file error: a
truncation at any point of any face record (count byte, index read, color
byte, in any record, even after complete faces) yields exactly this
error. -/
theorem readFaces_err (buf : Bytes) (le : Bool) (props : List String) :
    ∀ (m off : Nat) (acc : List Face) (e : PLY.ParseError),
      PLY.readFaces buf le props m off acc = .err e →
      e = ⟨"Unexpected end of file in binary data", -1⟩ := by
  intro m
  induction m with
  | zero => intro off acc e h; unfold PLY.readFaces at h; cases h
  | succ w ih =>
    intro off acc e h
    unfold PLY.readFaces at h
    cases hr : PLY.readFaceProps buf le props off [] with
    | err e2 =>
      rw [hr] at h
      dsimp only at h
      injection h with h
      subst h
      exact readFaceProps_err buf le props off [] e2 hr
    | ok pr =>
      obtain ⟨is, offa⟩ := pr
      rw [hr] at h
      dsimp only at h
      exact ih offa _ e h

/-- A successful face loop never moves the cursor past the buffer. -/
theorem readFaces_ok_bound (buf : Bytes) (le : Bool) (props : List String) :
    ∀ (m off : Nat) (acc fs : List Face) (off2 : Nat),
      off ≤ buf.length →
      PLY.readFaces buf le props m off acc = .ok (fs, off2) →
      off ≤ off2 ∧ off2 ≤ buf.length := by
  intro m
  induction m with
  | zero =>
    intro off acc fs off2 hb h
    unfold PLY.readFaces at h
    injection h with h
    injection h with h1 h2
    subst h2
    exact ⟨Nat.le_refl _, hb⟩
  | succ w ih =>
    intro off acc fs off2 hb h
    unfold PLY.readFaces at h
    cases hr : PLY.readFaceProps buf le props off [] with
    | err e => rw [hr] at h; cases h
    | ok pr =>
      obtain ⟨is, offa⟩ := pr
      rw [hr] at h
      dsimp only at h
      obtain ⟨ha, hb2⟩ := readFaceProps_ok_bound buf le props off [] is offa hb hr
      obtain ⟨hc, hd⟩ := ih offa _ fs off2 hb2 h
      exact ⟨by omega, hd⟩

/-- The vertex property loop of `ply.ts` fails only with the end-of-file
error. -/
theorem readVertexProps_err (buf : Bytes) (le : Bool) :
    ∀ (props : List String) (off : Nat) (pos : Option Vec3) (e : PLY.ParseError),
      PLY.readVertexProps buf le props off pos = .err e →
      e = ⟨"Unexpected end of file in binary data", -1⟩ := by
  intro props
  induction props with
  | nil => intro off pos e h; unfold PLY.readVertexProps at h; cases h
  | cons prop rest ih =>
    intro off pos e h
    unfold PLY.readVertexProps at h
    cases hr : PLY.readFloat32 buf le off with
    | err e2 =>
      rw [hr] at h
      dsimp only at h
      injection h with h
      subst h
      exact readFloat32_err buf le off e2 hr
    | ok pr =>
      obtain ⟨v, offa⟩ := pr
      rw [hr] at h
      dsimp only at h
      exact ih offa _ e h

/-- The vertex loop of `ply.ts` fails only with the end-of-file error or the
missing-position error. -/
theorem readVertices_err (buf : Bytes) (le : Bool) (props : List String) :
    ∀ (k off : Nat) (acc : List Vertex) (e : PLY.ParseError),
      PLY.readVertices buf le props k off acc = .err e →
      e = ⟨"Unexpected end of file in binary data", -1⟩ ∨
        e = ⟨"Missing vertex position data", -1⟩ := by
  intro k
  induction k with
  | zero => intro off acc e h; unfold PLY.readVertices at h; cases h
  | succ w ih =>
    intro off acc e h
    unfold PLY.readVertices at h
    cases hr : PLY.readVertexProps buf le props off none with
    | err e2 =>
      rw [hr] at h
      dsimp only at h
      injection h with h
      subst h
      exact Or.inl (readVertexProps_err buf le props off none e2 hr)
    | ok pr =>
      obtain ⟨pos, offa⟩ := pr
      rw [hr] at h
      dsimp only at h
      cases pos with
      | none =>
        dsimp only at h
        injection h with h
        subst h
        exact Or.inr rfl
      | some p =>
        dsimp only at h
        exact ih offa _ e h

/-- Vertex-loop truncation with an arbitrary nonempty property list: the
loop fails (with the end-of-file error, or the missing-position error when a
complete positionless record precedes the truncation point). -/
theorem readVertices_eof_general (buf : Bytes) (le : Bool) (props : List String)
    (hne : props ≠ []) :
    ∀ (k off : Nat) (acc : List Vertex), 1 ≤ k →
      buf.length < off + k * (4 * props.length) →
      PLY.readVertices buf le props k off acc =
          .err ⟨"Unexpected end of file in binary data", -1⟩ ∨
        PLY.readVertices buf le props k off acc =
          .err ⟨"Missing vertex position data", -1⟩ := by
  intro k
  induction k with
  | zero => intro off acc h1 _; exact absurd h1 (by omega)
  | succ w ih =>
    intro off acc _ hlen
    have hmul : (w + 1) * (4 * props.length) =
        4 * props.length + w * (4 * props.length) := by ring
    rw [hmul] at hlen
    unfold PLY.readVertices
    by_cases hfit : off + 4 * props.length ≤ buf.length
    · obtain ⟨pos2, hrun, _⟩ := readVertexProps_ok buf le props off none hfit
      rw [hrun]
      dsimp only
      cases pos2 with
      | none => exact Or.inr rfl
      | some p =>
        dsimp only
        by_cases hw : w = 0
        · exfalso
          rw [hw] at hlen
          simp at hlen
          omega
        · exact ih (off + 4 * props.length) _ (by omega) (by omega)
    · rw [readVertexProps_eof buf le props off none (by omega) hne]
      exact Or.inl rfl

/-- A face record starting with the `vertex_indices` list whose count byte
is readable but whose index list extends past the buffer fails with the
end-of-file error. -/
theorem readFaceProps_vi_partial_eof (buf : Bytes) (le : Bool) (rest : List String)
    (off : Nat) (acc : List JSNum) (h1 : off + 1 ≤ buf.length)
    (h2 : 1 ≤ byteAt buf off) (h3 : buf.length < off + 1 + 4 * byteAt buf off) :
    PLY.readFaceProps buf le ("vertex_indices" :: rest) off acc =
      .err ⟨"Unexpected end of file in binary data", -1⟩ := by
  have hcnt : PLY.readUint8 buf off = .ok (jn (byteAt buf off), off + 1) := by
    unfold PLY.readUint8
    rw [if_neg (by omega)]
  have hidx : PLY.readIndices buf le (jn (byteAt buf off)).loopCount (off + 1) [] =
      .err ⟨"Unexpected end of file in binary data", -1⟩ := by
    rw [loopCount_jn]
    exact readIndices_eof buf le (byteAt buf off) (off + 1) [] h2 (by omega)
  unfold PLY.readFaceProps
  simp [hcnt, hidx]

/-- A face record whose next property is a color byte lying past the buffer
fails with the end-of-file error. -/
theorem readFaceProps_color_eof (buf : Bytes) (le : Bool) (prop : String)
    (rest : List String) (off : Nat) (acc : List JSNum)
    (hp : prop = "red" ∨ prop = "green" ∨ prop = "blue" ∨ prop = "alpha")
    (h : buf.length < off + 1) :
    PLY.readFaceProps buf le (prop :: rest) off acc =
      .err ⟨"Unexpected end of file in binary data", -1⟩ := by
  have hcnt : PLY.readUint8 buf off =
      .err ⟨"Unexpected end of file in binary data", -1⟩ := by
    unfold PLY.readUint8
    rw [if_pos (by omega)]
  unfold PLY.readFaceProps
  rcases hp with h4 | h4 | h4 | h4 <;> subst h4 <;> simp [hcnt]

/-- C4 (amended): binary PLY truncation is always detected, nothing partial
escapes, and no byte is ever read out of bounds.  (1) Every primitive read
of `ply.ts` is bounds-checked: past the end it fails with the
"Unexpected end of file in binary data" error, otherwise it succeeds and
advances by its fixed width.  (2) A truncated vertex stream whose element
declares a position property fails with the end-of-file error.  (3) With an
arbitrary nonempty property list a truncated vertex stream still fails —
with the end-of-file error or, when a complete positionless record precedes
the truncation point, the missing-position error.  (4) The face loop's only
possible error is the end-of-file error, at every truncation point: count
byte, any index read, any color byte, in any record, also after complete
faces.  (5) A face record whose index list extends past the buffer fails
with the end-of-file error, as does (6) one whose next color byte lies past
the buffer.  (7) A successful face loop never moves the cursor past the
buffer, so success implies no out-of-bounds read happened.  (8) The whole
binary body rejects with one of exactly three errors (end-of-file, missing
vertex element, missing position) — it never silently succeeds past a
failed read.  (9) Any face element with the single `vertex_indices`
property whose first record extends past the buffer (count byte or index
list) makes the face loop fail with the end-of-file error. -/
theorem ply_binary_truncation_eof :
    (∀ (buf : Bytes) (le : Bool) (off : Nat),
      (buf.length < off + 4 → PLY.readFloat32 buf le off =
        .err ⟨"Unexpected end of file in binary data", -1⟩) ∧
      (off + 4 ≤ buf.length → ∃ v, PLY.readFloat32 buf le off = .ok (v, off + 4)) ∧
      (buf.length < off + 1 → PLY.readUint8 buf off =
        .err ⟨"Unexpected end of file in binary data", -1⟩) ∧
      (off + 1 ≤ buf.length → ∃ v, PLY.readUint8 buf off = .ok (v, off + 1)) ∧
      (buf.length < off + 4 → PLY.readInt32 buf le off =
        .err ⟨"Unexpected end of file in binary data", -1⟩) ∧
      (off + 4 ≤ buf.length → ∃ v, PLY.readInt32 buf le off = .ok (v, off + 4))) ∧
    (∀ (header : PLY.PLYHeader) (buf : Bytes) (velem : PLY.PLYElement) (n : Nat),
      PLY.recGet header.elements "vertex" = some velem →
      velem.count = jn n → 1 ≤ n →
      ("x" ∈ velem.properties ∨ "y" ∈ velem.properties ∨ "z" ∈ velem.properties) →
      buf.length < n * (4 * velem.properties.length) →
      PLY.parseBinaryBodyFromArrayBuffer buf header =
        .err ⟨"Unexpected end of file in binary data", -1⟩) ∧
    (∀ (header : PLY.PLYHeader) (buf : Bytes) (velem : PLY.PLYElement) (n : Nat),
      PLY.recGet header.elements "vertex" = some velem →
      velem.count = jn n → 1 ≤ n → velem.properties ≠ [] →
      buf.length < n * (4 * velem.properties.length) →
      (PLY.parseBinaryBodyFromArrayBuffer buf header =
          .err ⟨"Unexpected end of file in binary data", -1⟩ ∨
        PLY.parseBinaryBodyFromArrayBuffer buf header =
          .err ⟨"Missing vertex position data", -1⟩)) ∧
    (∀ (buf : Bytes) (le : Bool) (props : List String) (m off : Nat)
        (acc : List Face) (e : PLY.ParseError),
      PLY.readFaces buf le props m off acc = .err e →
      e = ⟨"Unexpected end of file in binary data", -1⟩) ∧
    (∀ (buf : Bytes) (le : Bool) (rest : List String) (off : Nat)
        (acc : List JSNum),
      off + 1 ≤ buf.length → 1 ≤ byteAt buf off →
      buf.length < off + 1 + 4 * byteAt buf off →
      PLY.readFaceProps buf le ("vertex_indices" :: rest) off acc =
        .err ⟨"Unexpected end of file in binary data", -1⟩) ∧
    (∀ (buf : Bytes) (le : Bool) (prop : String) (rest : List String)
        (off : Nat) (acc : List JSNum),
      (prop = "red" ∨ prop = "green" ∨ prop = "blue" ∨ prop = "alpha") →
      buf.length < off + 1 →
      PLY.readFaceProps buf le (prop :: rest) off acc =
        .err ⟨"Unexpected end of file in binary data", -1⟩) ∧
    (∀ (buf : Bytes) (le : Bool) (props : List String) (m off : Nat)
        (acc fs : List Face) (off2 : Nat),
      off ≤ buf.length →
      PLY.readFaces buf le props m off acc = .ok (fs, off2) →
      off ≤ off2 ∧ off2 ≤ buf.length) ∧
    (∀ (buf : Bytes) (header : PLY.PLYHeader) (e : PLY.ParseError),
      PLY.parseBinaryBodyFromArrayBuffer buf header = .err e →
      e = ⟨"Unexpected end of file in binary data", -1⟩ ∨
        e = ⟨"Missing vertex element", -1⟩ ∨
        e = ⟨"Missing vertex position data", -1⟩) ∧
    (∀ (buf : Bytes) (le : Bool) (m off : Nat) (acc : List Face), 1 ≤ m →
      (buf.length < off + 1 ∨
        (off + 1 ≤ buf.length ∧ 1 ≤ byteAt buf off ∧
          buf.length < off + 1 + 4 * byteAt buf off)) →
      PLY.readFaces buf le ["vertex_indices"] m off acc =
        .err ⟨"Unexpected end of file in binary data", -1⟩) := by
  refine ⟨?_, ?_, ?_, readFaces_err, readFaceProps_vi_partial_eof,
    readFaceProps_color_eof, readFaces_ok_bound, ?_, ?_⟩
  · intro buf le off
    refine ⟨fun h => ?_, fun h => ?_, fun h => ?_, fun h => ?_, fun h => ?_, fun h => ?_⟩
    · unfold PLY.readFloat32
      rw [if_pos (by omega)]
    · exact ⟨getFloat32 buf off le, by unfold PLY.readFloat32; rw [if_neg (by omega)]⟩
    · unfold PLY.readUint8
      rw [if_pos (by omega)]
    · exact ⟨jn (byteAt buf off), by unfold PLY.readUint8; rw [if_neg (by omega)]⟩
    · unfold PLY.readInt32
      rw [if_pos (by omega)]
    · exact ⟨jn (toSigned (wordAt buf off 4 le) 32),
        by unfold PLY.readInt32; rw [if_neg (by omega)]⟩
  · intro header buf velem n hv hc h1 hx hlen
    unfold PLY.parseBinaryBodyFromArrayBuffer
    rw [hv]
    dsimp only
    rw [hc, loopCount_jn]
    rw [readVertices_eof buf _ velem.properties hx n 0 [] h1 (by omega)]
  · intro header buf velem n hv hc h1 hne hlen
    unfold PLY.parseBinaryBodyFromArrayBuffer
    rw [hv]
    dsimp only
    rw [hc, loopCount_jn]
    rcases readVertices_eof_general buf (header.format == "binary_little_endian")
        velem.properties hne n 0 [] h1 (by omega) with hE | hM
    · rw [hE]
      exact Or.inl rfl
    · rw [hM]
      exact Or.inr rfl
  · intro buf header e h
    unfold PLY.parseBinaryBodyFromArrayBuffer at h
    dsimp only at h
    cases hv : PLY.recGet header.elements "vertex" with
    | none =>
      rw [hv] at h
      dsimp only at h
      injection h with h
      subst h
      exact Or.inr (Or.inl rfl)
    | some velem =>
      rw [hv] at h
      dsimp only at h
      cases hr : PLY.readVertices buf (header.format == "binary_little_endian")
          velem.properties velem.count.loopCount 0 [] with
      | err e2 =>
        rw [hr] at h
        dsimp only at h
        injection h with h
        subst h
        rcases readVertices_err _ _ _ _ _ _ _ hr with hE | hM
        · exact Or.inl hE
        · exact Or.inr (Or.inr hM)
      | ok pr =>
        obtain ⟨vs, off0⟩ := pr
        rw [hr] at h
        dsimp only at h
        cases hf : PLY.recGet header.elements "face" with
        | none =>
          rw [hf] at h
          cases h
        | some felem =>
          rw [hf] at h
          dsimp only at h
          cases hg : PLY.readFaces buf (header.format == "binary_little_endian")
              felem.properties felem.count.loopCount off0 [] with
          | err e2 =>
            rw [hg] at h
            dsimp only at h
            injection h with h
            subst h
            exact Or.inl (readFaces_err _ _ _ _ _ _ _ hg)
          | ok pr2 =>
            obtain ⟨fs, off1⟩ := pr2
            rw [hg] at h
            cases h
  · intro buf le m off acc hm hd
    cases m with
    | zero => exact absurd hm (by omega)
    | succ w =>
      unfold PLY.readFaces
      rcases hd with hd | ⟨hd1, hd2, hd3⟩
      · rw [readFaceProps_vi_eof buf le off hd]
      · rw [readFaceProps_vi_partial_eof buf le [] off [] hd1 hd2 (by omega)]

theorem ply_binary_truncation_eof_witness :
    PLY.parseBinaryBodyFromArrayBuffer [0, 0, 0, 0] c4Header =
      .err ⟨"Unexpected end of file in binary data", -1⟩ :=
  ply_binary_truncation_eof.2.1 c4Header [0, 0, 0, 0]
    ⟨"vertex", jn 1, ["x", "y", "z"]⟩ 1 (by decide) (by decide) (by decide)
    (by decide) (by decide)

/-- Counterexample to the unconditional "unexpected end of file" claim: a
binary body whose vertex element declares no position property at all.  The
two declared records need 8 bytes and only 4 are present — the second
vertex record extends past the end of the buffer — yet `ply.ts` fails with
the missing-position error (raised after the first, complete, positionless
record), not the end-of-file error. -/
theorem ply_binary_truncation_counterexample :
    ([0, 0, 0, 0] : Bytes).length < 2 * (4 * 1) ∧
    PLY.parseBinaryBodyFromArrayBuffer [0, 0, 0, 0] c4xHeader =
      .err ⟨"Missing vertex position data", -1⟩ ∧
    (⟨"Missing vertex position data", -1⟩ : PLY.ParseError) ≠
      ⟨"Unexpected end of file in binary data", -1⟩ := by
  decide

/-- A successful typed scalar read advances the cursor by exactly the
declared type width. -/
theorem readScalar_ok_offset (buf : Bytes) (le : Bool) (ty : String) (off : Nat)
    (v : JSNum) (off2 : Nat) (h : PLY2.readScalar buf le ty off = .ok (v, off2)) :
    off2 = off + ((PLY2.typeSize ty).getD 0) := by
  unfold PLY2.readScalar at h
  unfold PLY2.typeSize
  split_ifs at h <;> simp_all

/-- A successful `n`-fold typed scalar read yields exactly `n` values and
advances the cursor by `n` times the declared width. -/
theorem readScalarN_spec (buf : Bytes) (le : Bool) (ty : String) :
    ∀ (k off : Nat) (vs : List JSNum) (off2 : Nat),
      PLY2.readScalarN buf le ty k off = .ok (vs, off2) →
      vs.length = k ∧ off2 = off + k * ((PLY2.typeSize ty).getD 0) := by
  intro k
  induction k with
  | zero =>
    intro off vs off2 h
    unfold PLY2.readScalarN at h
    injection h with h
    injection h with h1 h2
    subst h1
    subst h2
    simp
  | succ w ih =>
    intro off vs off2 h
    unfold PLY2.readScalarN at h
    cases hr : PLY2.readScalar buf le ty off with
    | err e => rw [hr] at h; cases h
    | ok pr =>
      obtain ⟨v, offa⟩ := pr
      rw [hr] at h
      dsimp only at h
      cases hs : PLY2.readScalarN buf le ty w offa with
      | err e => rw [hs] at h; cases h
      | ok pr2 =>
        obtain ⟨ws, offb⟩ := pr2
        rw [hs] at h
        dsimp only at h
        injection h with h
        injection h with h1 h2
        subst h1
        subst h2
        obtain ⟨hl, ho⟩ := ih offa ws offb hs
        have ha := readScalar_ok_offset buf le ty off v offa hr
        constructor
        · simp [hl]
        · rw [ho, ha]
          ring

/-- Header-order reads in the typed binary vertex fold: when the whole fold
succeeds, the property after the prefix `props1` is read by one typed scalar
read at the cursor advanced by the declared widths of the prefix, and that
read itself advances by the property's declared width. -/
theorem parseBinaryVertexGo_reads_at (buf : Bytes) (le : Bool) :
    ∀ (props1 : List PLY2.PLYProperty) (p : PLY2.PLYProperty)
      (props2 : List PLY2.PLYProperty) (off : Nat) (data : PLY2.VertexData)
      (res : PLY2.VertexData × Nat),
      PLY2.parseBinaryVertexGo buf le (props1 ++ p :: props2) off data = .ok res →
      ∃ v, PLY2.readScalar buf le p.type
          (off + (props1.map (fun q => (PLY2.typeSize q.type).getD 0)).sum) =
        .ok (v, off + (props1.map (fun q => (PLY2.typeSize q.type).getD 0)).sum +
          (PLY2.typeSize p.type).getD 0) := by
  intro props1
  induction props1 with
  | nil =>
    intro p props2 off data res h
    rw [List.nil_append] at h
    unfold PLY2.parseBinaryVertexGo at h
    cases hr : PLY2.readScalar buf le p.type off with
    | err e => rw [hr] at h; cases h
    | ok pr =>
      obtain ⟨v, offa⟩ := pr
      have ha := readScalar_ok_offset buf le p.type off v offa hr
      refine ⟨v, ?_⟩
      simp only [List.map_nil, List.sum_nil, Nat.add_zero]
      rw [hr, ha]
  | cons q props1 ih =>
    intro p props2 off data res h
    rw [List.cons_append] at h
    unfold PLY2.parseBinaryVertexGo at h
    cases hr : PLY2.readScalar buf le q.type off with
    | err e => rw [hr] at h; cases h
    | ok pr =>
      obtain ⟨v, offa⟩ := pr
      rw [hr] at h
      dsimp only at h
      have ha := readScalar_ok_offset buf le q.type off v offa hr
      obtain ⟨w, hw⟩ := ih p props2 offa (PLY2.vertexFieldUpd data q.name v) res h
      refine ⟨w, ?_⟩
      rw [ha] at hw
      simp only [List.map_cons, List.sum_cons]
      have he : off + ((PLY2.typeSize q.type).getD 0 +
          (props1.map (fun r => (PLY2.typeSize r.type).getD 0)).sum) =
          off + (PLY2.typeSize q.type).getD 0 +
            (props1.map (fun r => (PLY2.typeSize r.type).getD 0)).sum := by omega
      rw [he]
      exact hw

/-- Bounds behaviour of the typed scalar read: for any type with a declared
width, a read at a cursor with fewer than that many bytes left fails with
`Unexpected EOF`, and otherwise succeeds advancing by exactly that width. -/
theorem readScalar_width (ty : String) (w : Nat) (hw : PLY2.typeSize ty = some w)
    (le : Bool) (buf : Bytes) (off : Nat) :
    (buf.length < off + w → PLY2.readScalar buf le ty off = .err ⟨"Unexpected EOF", -1⟩) ∧
    (off + w ≤ buf.length → ∃ v, PLY2.readScalar buf le ty off = .ok (v, off + w)) := by
  unfold PLY2.typeSize at hw
  unfold PLY2.readScalar
  split_ifs at hw with h1 h2 h3 h4 h5 h6 h7 h8
  all_goals try (injection hw with hw; subst hw)
  all_goals try (simp at hw)
  all_goals (first | subst h8 | subst h7 | subst h6 | subst h5 | subst h4 | subst h3 | subst h2 | subst h1)
  all_goals exact ⟨fun hl => by simp [hl], fun hl => by simp [Nat.not_lt.mpr hl]⟩

/-- C3: the typed binary PLY body decoder reads each scalar with the fixed
width of its header-declared type (char/uchar 1 byte, short/ushort 2,
int/uint/float 4, double 8), reads vertex properties in header-declared
order at the cursor advanced by the widths of the preceding properties,
maps normal/texcoord property names onto the corresponding Vertex fields,
and reads the face list property as one count of the declared count type
followed by that many indices of the declared index type. -/
theorem ply2_typed_binary_scalar_reads :
    (PLY2.typeSize "char" = some 1 ∧ PLY2.typeSize "uchar" = some 1 ∧
      PLY2.typeSize "short" = some 2 ∧ PLY2.typeSize "ushort" = some 2 ∧
      PLY2.typeSize "int" = some 4 ∧ PLY2.typeSize "uint" = some 4 ∧
      PLY2.typeSize "float" = some 4 ∧ PLY2.typeSize "double" = some 8) ∧
    (∀ (ty : String) (w : Nat), PLY2.typeSize ty = some w →
      ∀ (le : Bool) (buf : Bytes) (off : Nat),
      (buf.length < off + w →
        PLY2.readScalar buf le ty off = .err ⟨"Unexpected EOF", -1⟩) ∧
      (off + w ≤ buf.length →
        ∃ v, PLY2.readScalar buf le ty off = .ok (v, off + w))) ∧
    (∀ (buf : Bytes) (le : Bool) (props1 : List PLY2.PLYProperty)
        (p : PLY2.PLYProperty) (props2 : List PLY2.PLYProperty) (off : Nat)
        (data : PLY2.VertexData) (res : PLY2.VertexData × Nat),
      PLY2.parseBinaryVertexGo buf le (props1 ++ p :: props2) off data = .ok res →
      ∃ v, PLY2.readScalar buf le p.type
          (off + (props1.map (fun q => (PLY2.typeSize q.type).getD 0)).sum) =
        .ok (v, off + (props1.map (fun q => (PLY2.typeSize q.type).getD 0)).sum +
          (PLY2.typeSize p.type).getD 0)) ∧
    (∀ (d : PLY2.VertexData) (v : JSNum),
      (PLY2.vertexFieldUpd d "x" v).position.x = v ∧
      (PLY2.vertexFieldUpd d "y" v).position.y = v ∧
      (PLY2.vertexFieldUpd d "z" v).position.z = v ∧
      (∃ nv, (PLY2.vertexFieldUpd d "nx" v).normal = some nv ∧ nv.x = v) ∧
      (∃ nv, (PLY2.vertexFieldUpd d "ny" v).normal = some nv ∧ nv.y = v) ∧
      (∃ nv, (PLY2.vertexFieldUpd d "nz" v).normal = some nv ∧ nv.z = v) ∧
      (∃ t, (PLY2.vertexFieldUpd d "s" v).texCoord = some t ∧ t.x = v) ∧
      (∃ t, (PLY2.vertexFieldUpd d "t" v).texCoord = some t ∧ t.y = v)) ∧
    (∀ (p : PLY2.PLYProperty) (buf : Bytes) (le : Bool) (off : Nat)
        (indices : List JSNum) (off2 : Nat),
      p.isList = true → p.name = "vertex_indices" →
      PLY2.parseBinaryFaceGo buf le [p] off [] = .ok (indices, off2) →
      ∃ cnt offc,
        PLY2.readScalar buf le (p.listType.getD "undefined") off = .ok (cnt, offc) ∧
        offc = off + ((PLY2.typeSize (p.listType.getD "undefined")).getD 0) ∧
        indices.length = cnt.toLengthNat ∧
        off2 = offc + cnt.toLengthNat * ((PLY2.typeSize p.type).getD 0)) := by
  refine ⟨by decide, readScalar_width, parseBinaryVertexGo_reads_at, ?_, ?_⟩
  · intro d v
    cases hn : d.normal <;> cases ht : d.texCoord <;>
      simp [PLY2.vertexFieldUpd, createVec3, createVec2, hn, ht]
  · intro p buf le off indices off2 hl hn h
    unfold PLY2.parseBinaryFaceGo at h
    simp only [hl, hn, Bool.true_and, beq_self_eq_true, Bool.true_or, if_pos] at h
    cases hr : PLY2.readScalar buf le (p.listType.getD "undefined") off with
    | err e => rw [hr] at h; cases h
    | ok pr =>
      obtain ⟨cnt, offc⟩ := pr
      rw [hr] at h
      dsimp only at h
      cases hs : PLY2.readScalarN buf le p.type cnt.toLengthNat offc with
      | err e => rw [hs] at h; cases h
      | ok pr2 =>
        obtain ⟨vs, off3⟩ := pr2
        rw [hs] at h
        dsimp only at h
        unfold PLY2.parseBinaryFaceGo at h
        rw [List.nil_append] at h
        injection h with h
        injection h with hi ho
        subst hi
        subst ho
        obtain ⟨hlen, hoff⟩ := readScalarN_spec buf le p.type cnt.toLengthNat offc vs off3 hs
        exact ⟨cnt, offc, rfl, readScalar_ok_offset buf le _ off cnt offc hr, hlen, hoff⟩

theorem ply2_typed_binary_scalar_reads_witness :
    ∃ cnt offc,
      PLY2.readScalar [2, 5, 0, 0, 0, 7, 0, 0, 0] true "uchar" 0 = .ok (cnt, offc) ∧
      offc = 0 + ((PLY2.typeSize "uchar").getD 0) ∧
      ([jn 5, jn 7] : List JSNum).length = JSNum.toLengthNat cnt ∧
      9 = offc + JSNum.toLengthNat cnt * ((PLY2.typeSize "int").getD 0) :=
  ply2_typed_binary_scalar_reads.2.2.2.2
    ⟨"vertex_indices", "int", true, some "uchar"⟩
    [2, 5, 0, 0, 0, 7, 0, 0, 0] true 0 [jn 5, jn 7] 9 rfl rfl (by decide)

/-- Appending a binding for a key that was absent makes it found. -/
theorem lookupKey_append_of_none (m : List (String × Nat)) (k : String) (v : Nat)
    (h : OBJ.lookupKey m k = none) :
    OBJ.lookupKey (m ++ [(k, v)]) k = some v := by
  induction m with
  | nil => simp [OBJ.lookupKey]
  | cons a m ih =>
    by_cases ha : a.1 = k
    · exfalso
      simp [OBJ.lookupKey, List.find?_cons, ha] at h
    · unfold OBJ.lookupKey at h ⊢
      rw [List.cons_append, List.find?_cons] at *
      have hb : (a.1 == k) = false := by simp [ha]
      rw [hb] at h ⊢
      exact ih h

/-- A lookup in a map extended by one binding is the old result or the new
binding's value. -/
theorem lookupKey_append_elim (m : List (String × Nat)) (k k2 : String) (v i : Nat)
    (h : OBJ.lookupKey (m ++ [(k, v)]) k2 = some i) :
    OBJ.lookupKey m k2 = some i ∨ i = v := by
  induction m with
  | nil =>
    right
    simp [OBJ.lookupKey, List.find?_cons] at h
    cases hb : (k == k2) with
    | true => rw [hb] at h; simp at h; omega
    | false => rw [hb] at h; simp at h
  | cons a m ih =>
    unfold OBJ.lookupKey at h ⊢
    rw [List.cons_append, List.find?_cons] at *
    cases hb : (a.1 == k2) with
    | true => rw [hb] at h; dsimp only at h ⊢; exact Or.inl h
    | false => rw [hb] at h; dsimp only at h ⊢; exact ih h

/-- `getOrCreateVertex` preserves the map/list invariant, returns an index
into the (new) canonical list, and only ever appends to that list. -/
theorem getOrCreateVertex_invar (p n : List Vec3) (t : List Vec2)
    (st : OBJ.DedupState) (r : OBJ.FaceRef) (i : Nat) (st2 : OBJ.DedupState)
    (hI : dedupInv st)
    (h : OBJ.getOrCreateVertex p n t st r = .ok (i, st2)) :
    dedupInv st2 ∧ i < st2.vertices.length ∧ st.vertices.length ≤ st2.vertices.length := by
  unfold OBJ.getOrCreateVertex at h
  dsimp only at h
  cases hl : OBJ.lookupKey st.vertexMap (OBJ.refKey r) with
  | some i0 =>
    rw [hl] at h
    dsimp only at h
    injection h with h
    injection h with h1 h2
    subst h1
    subst h2
    exact ⟨hI, hI _ _ hl, Nat.le_refl _⟩
  | none =>
    rw [hl] at h
    dsimp only at h
    cases hp : jsGetElem p r.posIndex with
    | none => rw [hp] at h; cases h
    | some pos =>
      rw [hp] at h
      dsimp only at h
      injection h with h
      injection h with h1 h2
      subst h1
      subst h2
      refine ⟨?_, ?_, ?_⟩
      · intro k2 i2 h2
        rcases lookupKey_append_elim _ _ _ _ _ h2 with hh | hh
        · have := hI _ _ hh
          simp only [List.length_append, List.length_cons, List.length_nil]
          omega
        · subst hh
          simp only [List.length_append, List.length_cons, List.length_nil]
          omega
      · simp
      · simp

/-- The per-face reference loop keeps the invariant, only grows the canonical
list, and produces indices into the final canonical list. -/
theorem rebuildFaceRefs_invar (p n : List Vec3) (t : List Vec2) :
    ∀ (rs : List OBJ.FaceRef) (st : OBJ.DedupState) (is : List JSNum)
      (st2 : OBJ.DedupState), dedupInv st →
      OBJ.rebuildFaceRefs p n t rs st = .ok (is, st2) →
      dedupInv st2 ∧ st.vertices.length ≤ st2.vertices.length ∧
        ∀ ix ∈ is, ∃ j : Nat, ix = jn j ∧ j < st2.vertices.length := by
  intro rs
  induction rs with
  | nil =>
    intro st is st2 hI h
    unfold OBJ.rebuildFaceRefs at h
    injection h with h
    injection h with h1 h2
    subst h1
    subst h2
    exact ⟨hI, Nat.le_refl _, by simp⟩
  | cons r rs ih =>
    intro st is st2 hI h
    unfold OBJ.rebuildFaceRefs at h
    cases hg : OBJ.getOrCreateVertex p n t st r with
    | error m => rw [hg] at h; cases h
    | ok pr =>
      obtain ⟨i, sta⟩ := pr
      rw [hg] at h
      dsimp only at h
      cases hr : OBJ.rebuildFaceRefs p n t rs sta with
      | error m => rw [hr] at h; cases h
      | ok pr2 =>
        obtain ⟨js, stb⟩ := pr2
        rw [hr] at h
        dsimp only at h
        injection h with h
        injection h with h1 h2
        subst h1
        subst h2
        obtain ⟨hIa, hia, hga⟩ := getOrCreateVertex_invar p n t st r i sta hI hg
        obtain ⟨hIb, hgb, hjs⟩ := ih sta js stb hIa hr
        refine ⟨hIb, by omega, ?_⟩
        intro ix hix
        rcases List.mem_cons.mp hix with hx | hx
        · exact ⟨i, hx, by omega⟩
        · exact hjs ix hx

/-- The face loop keeps the invariant and every produced face's indices
reference the final canonical vertex list. -/
theorem rebuildFacesGo_invar (p n : List Vec3) (t : List Vec2) :
    ∀ (fs : List OBJ.PendingFace) (st : OBJ.DedupState) (gs : List Face)
      (st2 : OBJ.DedupState), dedupInv st →
      OBJ.rebuildFacesGo p n t fs st = .ok (gs, st2) →
      dedupInv st2 ∧ st.vertices.length ≤ st2.vertices.length ∧
        ∀ f ∈ gs, ∀ ix ∈ f.indices, ∃ j : Nat, ix = jn j ∧ j < st2.vertices.length := by
  intro fs
  induction fs with
  | nil =>
    intro st gs st2 hI h
    unfold OBJ.rebuildFacesGo at h
    injection h with h
    injection h with h1 h2
    subst h1
    subst h2
    exact ⟨hI, Nat.le_refl _, by simp⟩
  | cons f fs ih =>
    intro st gs st2 hI h
    unfold OBJ.rebuildFacesGo at h
    cases hr : OBJ.rebuildFaceRefs p n t f.verts st with
    | error m => rw [hr] at h; cases h
    | ok pr =>
      obtain ⟨is, sta⟩ := pr
      rw [hr] at h
      dsimp only at h
      cases hg : OBJ.rebuildFacesGo p n t fs sta with
      | error m => rw [hg] at h; cases h
      | ok pr2 =>
        obtain ⟨hs, stb⟩ := pr2
        rw [hg] at h
        dsimp only at h
        injection h with h
        injection h with h1 h2
        subst h1
        subst h2
        obtain ⟨hIa, hga, his⟩ := rebuildFaceRefs_invar p n t f.verts st is sta hI hr
        obtain ⟨hIb, hgb, hhs⟩ := ih sta hs stb hIa hg
        refine ⟨hIb, by omega, ?_⟩
        intro g hg2 ix hix
        rcases List.mem_cons.mp hg2 with hx | hx
        · subst hx
          obtain ⟨j, hj1, hj2⟩ := his ix hix
          exact ⟨j, hj1, by omega⟩
        · exact hhs g hx ix hix

/-- C5 (corrected): `parseOBJ` deduplicates canonical vertices by the
sentinel-encoded string key `pos-(tex ?? -1)-(norm ?? -1)`, not by the bare
triple: the key of an explicit `-1` texture index (OBJ reference `1/0`)
collides with the key of an absent one, and the input
`v 0 0 0 / v 1 0 0 / v 0 1 0 / f 1 2 3 / f 1/0 2 3` therefore yields only 3
canonical vertices with both faces `[0,1,2]` although the reference triples
differ.  Equal keys always reuse the stored index without touching the
state, a fresh key appends exactly one Vertex built from the referenced
attributes (missing ones omitted), and every rebuilt face's indices
reference the canonical vertex list. -/
theorem obj_dedup_by_sentinel_key :
    (OBJ.refKey ⟨jn 0, some (jn (-1)), none⟩ = OBJ.refKey ⟨jn 0, none, none⟩ ∧
      (⟨jn 0, some (jn (-1)), none⟩ : OBJ.FaceRef) ≠ ⟨jn 0, none, none⟩ ∧
      OBJ.parseOBJ "v 0 0 0\nv 1 0 0\nv 0 1 0\nf 1 2 3\nf 1/0 2 3" = .ok c5Scene) ∧
    (∀ (p n : List Vec3) (t : List Vec2) (st : OBJ.DedupState) (r : OBJ.FaceRef)
        (i : Nat) (st2 : OBJ.DedupState) (r2 : OBJ.FaceRef),
      OBJ.getOrCreateVertex p n t st r = .ok (i, st2) →
      OBJ.refKey r2 = OBJ.refKey r →
      OBJ.getOrCreateVertex p n t st2 r2 = .ok (i, st2)) ∧
    (∀ (p n : List Vec3) (t : List Vec2) (st : OBJ.DedupState) (r : OBJ.FaceRef)
        (pos : Vec3),
      OBJ.lookupKey st.vertexMap (OBJ.refKey r) = none →
      jsGetElem p r.posIndex = some pos →
      OBJ.getOrCreateVertex p n t st r =
        .ok (st.vertices.length,
          ⟨st.vertexMap ++ [(OBJ.refKey r, st.vertices.length)],
            st.vertices ++ [OBJ.buildVertex n t r pos]⟩)) ∧
    (∀ (p n : List Vec3) (t : List Vec2) (faces : List OBJ.PendingFace)
        (vs : List Vertex) (fs : List Face),
      OBJ.rebuildFaces p n t faces = .ok (vs, fs) →
      ∀ f ∈ fs, ∀ ix ∈ f.indices, ∃ j : Nat, ix = jn j ∧ j < vs.length) := by
  refine ⟨by decide, ?_, ?_, ?_⟩
  · intro p n t st r i st2 r2 h hk
    unfold OBJ.getOrCreateVertex at h ⊢
    dsimp only at h ⊢
    rw [hk]
    cases hl : OBJ.lookupKey st.vertexMap (OBJ.refKey r) with
    | some i0 =>
      rw [hl] at h
      dsimp only at h
      injection h with h
      injection h with h1 h2
      subst h1
      subst h2
      rw [hl]
    | none =>
      rw [hl] at h
      dsimp only at h
      cases hp : jsGetElem p r.posIndex with
      | none => rw [hp] at h; cases h
      | some pos =>
        rw [hp] at h
        dsimp only at h
        injection h with h
        injection h with h1 h2
        subst h1
        subst h2
        rw [lookupKey_append_of_none st.vertexMap (OBJ.refKey r) st.vertices.length hl]
  · intro p n t st r pos hl hp
    unfold OBJ.getOrCreateVertex
    dsimp only
    rw [hl]
    dsimp only
    rw [hp]
  · intro p n t faces vs fs h
    unfold OBJ.rebuildFaces at h
    cases hg : OBJ.rebuildFacesGo p n t faces ⟨[], []⟩ with
    | error m => rw [hg] at h; cases h
    | ok pr =>
      obtain ⟨gs, st⟩ := pr
      rw [hg] at h
      dsimp only at h
      injection h with h
      injection h with h1 h2
      subst h1
      subst h2
      have hI : dedupInv ⟨[], []⟩ := by
        intro k i hki
        simp [OBJ.lookupKey] at hki
      obtain ⟨_, _, hfaces⟩ := rebuildFacesGo_invar p n t faces ⟨[], []⟩ gs st hI hg
      exact hfaces

theorem obj_dedup_by_sentinel_key_witness :
    OBJ.getOrCreateVertex [createVec3 (jn 0) (jn 0) (jn 0)] [] [] c5St
      ⟨jn 0, some (jn (-1)), none⟩ = .ok (0, c5St) :=
  obj_dedup_by_sentinel_key.2.1 [createVec3 (jn 0) (jn 0) (jn 0)] [] [] ⟨[], []⟩
    ⟨jn 0, none, none⟩ 0 c5St ⟨jn 0, some (jn (-1)), none⟩ rfl (by decide)

/-- Counterexample to triple-based deduplication: the reference triples
`(0, -1, absent)` (OBJ `1/0`) and `(0, absent, absent)` (OBJ `1`) differ but
share the dedup key `0--1--1`, and on the concrete input the second face's
new triple appends no canonical vertex: the scene keeps 3 vertices and both
faces are `[0, 1, 2]`. -/
theorem obj_dedup_triple_counterexample :
    OBJ.refKey ⟨jn 0, some (jn (-1)), none⟩ = OBJ.refKey ⟨jn 0, none, none⟩ ∧
    (⟨jn 0, some (jn (-1)), none⟩ : OBJ.FaceRef) ≠ ⟨jn 0, none, none⟩ ∧
    OBJ.parseOBJ "v 0 0 0\nv 1 0 0\nv 0 1 0\nf 1 2 3\nf 1/0 2 3" = .ok c5Scene := by
  decide
